import Mathlib

/-!
Verification development for the structlog-config repository.

Shallow embedding of the Python source under `src/structlog_config/`:
pure functions become Lean functions, and the stateful pieces (the
process-wide exception hook slots, the logging registry, `sys.stdout` /
`sys.stderr` redirection, the pytest plugin's per-test protocol) become
explicit state passing over structures that record exactly the fields the
source reads and writes.
-/

namespace StructlogConfig

/-! ## Exception hook model (`hook.py`, `exception_logging.py`)

An uncaught exception is modelled by the two attributes the hooks inspect:
whether its type is `KeyboardInterrupt` (or a subclass), which is what
`issubclass(exc_type, KeyboardInterrupt)` tests, and the type's `__name__`,
which `exception_logging.log_uncaught_exception` uses as the event name. -/

structure Exc where
  isKeyboardInterrupt : Bool
  excName : String
deriving DecidableEq

/-- A value that can sit in the process-wide `sys.excepthook` slot.
`defaultHook` is the interpreter's original `sys.__excepthook__`;
`structlogHook` is the closure installed by `hook.install_exception_hook`;
`exceptionLoggingHook` is the closure installed by
`exception_logging.setup_exception_hook`; `custom i` is an arbitrary hook
some other code installed earlier. -/
inductive Hook where
  | defaultHook
  | structlogHook
  | exceptionLoggingHook
  | custom (id : Nat)
deriving DecidableEq

/-- Observable effects of invoking a hook on an exception: printing the
traceback via the interpreter default, emitting a structlog record with a
given event name, or running a previously installed custom hook. -/
inductive HookEffect where
  | defaultPrinted (e : Exc)
  | structlogLogged (event : String) (e : Exc)
  | customRan (id : Nat) (e : Exc)
deriving DecidableEq

/-- Invoking the hook held in the `sys.excepthook` slot on an uncaught
exception.  `structlogHook` follows `hook._log_uncaught_exception`: for
`KeyboardInterrupt` it calls `sys.__excepthook__` and returns, otherwise it
calls `logger.exception("uncaught_exception", ...)`.  `exceptionLoggingHook`
follows `exception_logging.log_uncaught_exception`: same KeyboardInterrupt
branch, otherwise `logger.error(exc_type.__name__, ...)`. -/
def invokeHook : Hook → Exc → List HookEffect
  | .defaultHook, e => [.defaultPrinted e]
  | .custom i, e => [.customRan i e]
  | .structlogHook, e =>
    if e.isKeyboardInterrupt then [.defaultPrinted e]
    else [.structlogLogged "uncaught_exception" e]
  | .exceptionLoggingHook, e =>
    if e.isKeyboardInterrupt then [.defaultPrinted e]
    else [.structlogLogged e.excName e]

/-- The process-wide hook slots read and written by the two installers,
plus the package logger's message list. -/
structure ExcHookState where
  sysExcepthook : Hook
  threadingExcepthook : Hook
  packageLog : List String
deriving DecidableEq

/-- `hook.install_exception_hook`: logs an informational message when the
current `sys.excepthook` (resp. `threading.excepthook`) is not the
interpreter default, then overwrites both slots with the structlog hook. -/
def installExceptionHook (st : ExcHookState) : ExcHookState :=
  let log1 :=
    if st.sysExcepthook ≠ Hook.defaultHook then
      st.packageLog ++ ["overriding non-default excepthook hook_type=sys"]
    else st.packageLog
  let log2 :=
    if st.threadingExcepthook ≠ Hook.defaultHook then
      log1 ++ ["overriding non-default excepthook hook_type=threading"]
    else log1
  { sysExcepthook := Hook.structlogHook,
    threadingExcepthook := Hook.structlogHook,
    packageLog := log2 }

/-- `exception_logging.setup_exception_hook`: warns when `sys.excepthook`
differs from the interpreter default, then overwrites the slot with
`log_uncaught_exception`. -/
def setupExceptionHook (st : ExcHookState) : ExcHookState :=
  let log1 :=
    if st.sysExcepthook ≠ Hook.defaultHook then
      st.packageLog ++ ["An existing exception hook is already installed."]
    else st.packageLog
  { st with
    sysExcepthook := Hook.exceptionLoggingHook,
    packageLog := log1 }

/-! ## Environment-variable logger configuration (`env_config.py`) -/

/-- Characters matched by `[0-9;]` in the ANSI regex and nothing else;
declared early because both `env_config` and the plugin use char tests. -/
def isAnsiParam (c : Char) : Bool := c.isDigit || c = ';'

/-- `List.isPrefixOf`-style check, compiled from the literal prefix the
regexes `^LOG_LEVEL_(.+)$` and `^LOG_PATH_(.+)$` require at the start of
the variable name (`re.match` anchors at the start). -/
def listStartsWith : List Char → List Char → Bool
  | _, [] => true
  | [], _ :: _ => false
  | c :: cs, d :: ds => c = d && listStartsWith cs ds

/-- The tail match `(.+)$` of the two regexes, applied to what follows the
literal prefix: `.` does not match a newline, `+` needs at least one
character, and `$` (non-MULTILINE) matches at the end of the string or just
before a single final newline.  Returns the captured group. -/
def matchDotPlus (cs : List Char) : Option (List Char) :=
  let core := if cs.getLast? = some '\n' then cs.dropLast else cs
  if core ≠ [] ∧ core.all (fun c => c ≠ '\n') then some core else none

def logLevelPrefix : List Char := ['L', 'O', 'G', '_', 'L', 'E', 'V', 'E', 'L', '_']

def logPathPrefix : List Char := ['L', 'O', 'G', '_', 'P', 'A', 'T', 'H', '_']

/-- `LOG_LEVEL_PATTERN.match(env_var)`: the captured group when the name
matches `^LOG_LEVEL_(.+)$`. -/
def matchLogLevel (name : String) : Option (List Char) :=
  if listStartsWith name.data logLevelPrefix then
    matchDotPlus (name.data.drop logLevelPrefix.length)
  else none

/-- `LOG_PATH_PATTERN.match(env_var)`: the captured group when the name
matches `^LOG_PATH_(.+)$`. -/
def matchLogPath (name : String) : Option (List Char) :=
  if listStartsWith name.data logPathPrefix then
    matchDotPlus (name.data.drop logPathPrefix.length)
  else none

/-- `group(1).lower().replace("_", ".")` — the logger name derived from the
captured group (`str.lower` on the ASCII names environment variables use). -/
def loggerNameOf (group : List Char) : String :=
  String.mk ((group.map Char.toLower).map (fun c => if c = '_' then '.' else c))

/-- The logger key contributed by an environment variable name under the
`LOG_LEVEL_` pattern, when it matches. -/
def levelKeyOf (name : String) : Option String :=
  (matchLogLevel name).map loggerNameOf

/-- The logger key contributed by an environment variable name under the
`LOG_PATH_` pattern, when it matches. -/
def pathKeyOf (name : String) : Option String :=
  (matchLogPath name).map loggerNameOf

/-- One per-logger configuration dict: the `"level"` / `"path"` keys are
present exactly when the corresponding variable was seen. -/
structure LoggerConfig where
  level : Option String
  path : Option String
deriving DecidableEq

def emptyLoggerConfig : LoggerConfig := { level := none, path := none }

/-- `custom_configs[logger_name]["level"] = value`, creating the entry at
the end when absent (Python dicts preserve insertion order). -/
def setLevel (cfgs : List (String × LoggerConfig)) (key lv : String) :
    List (String × LoggerConfig) :=
  if cfgs.any (fun p => p.1 == key) then
    cfgs.map (fun p =>
      if p.1 == key then (p.1, { level := some lv, path := p.2.path }) else p)
  else cfgs ++ [(key, { level := some lv, path := none })]

/-- `custom_configs[logger_name]["path"] = value`, creating the entry at
the end when absent. -/
def setPath (cfgs : List (String × LoggerConfig)) (key pv : String) :
    List (String × LoggerConfig) :=
  if cfgs.any (fun p => p.1 == key) then
    cfgs.map (fun p =>
      if p.1 == key then (p.1, { level := p.2.level, path := some pv }) else p)
  else cfgs ++ [(key, { level := none, path := some pv })]

/-- One iteration of the `for env_var in os.environ` loop in
`get_custom_logger_configs`: try the level pattern, `elif` the path
pattern, otherwise contribute nothing. -/
def configStep (acc : List (String × LoggerConfig)) (p : String × String) :
    List (String × LoggerConfig) :=
  match matchLogLevel p.1 with
  | some g => setLevel acc (loggerNameOf g) p.2
  | none =>
    match matchLogPath p.1 with
    | some g => setPath acc (loggerNameOf g) p.2
    | none => acc

/-- `env_config.get_custom_logger_configs`: the environment is the ordered
association list of `os.environ` (a dict: names are unique, iteration is in
insertion order). -/
def getCustomLoggerConfigs (env : List (String × String)) :
    List (String × LoggerConfig) :=
  env.foldl configStep []

/-- The value of the unique `LOG_LEVEL_*` variable mapping to a logger key,
used to state what the parsed configuration holds. -/
def specLevel (env : List (String × String)) (key : String) : Option String :=
  (env.find? (fun p => levelKeyOf p.1 == some key)).map Prod.snd

/-- The value of the unique `LOG_PATH_*` variable mapping to a logger key. -/
def specPath (env : List (String × String)) (key : String) : Option String :=
  (env.find? (fun p => pathKeyOf p.1 == some key)).map Prod.snd

/-- No two environment variables contribute the same logger key through the
same pattern (`f` is `levelKeyOf` or `pathKeyOf`).  This holds of real
environments: variable names are unique and distinct names only collide if
they differ by case or `_`-vs-`.` in the logger-name part. -/
def distinctKeysBy (f : String → Option String) : List (String × String) → Bool
  | [] => true
  | p :: rest =>
    (match f p.1 with
     | none => true
     | some k => rest.all (fun q => f q.1 != some k)) && distinctKeysBy f rest

/-! ## Custom logger wiring (`env_config.setup_custom_loggers`) -/

/-- A handler attached to a stdlib logger: either the provided default
handler, or a `logging.FileHandler(path)` carrying the formatter copied
from the default handler by `setFormatter`. -/
inductive HandlerRef where
  | defaultHandler
  | fileHandler (path : String) (formatter : Option String)
deriving DecidableEq

/-- The fields of a stdlib `logging.Logger` that `setup_custom_loggers`
reads or writes. -/
structure PyLogger where
  propagate : Bool
  handlers : List HandlerRef
  level : Nat
deriving DecidableEq

/-- The stdlib logging registry plus the filesystem effect log:
`mkdirParents` records each configured path `p` for which
`Path(p).parent.mkdir(parents=True, exist_ok=True)` was run. -/
structure LoggingState where
  loggers : String → PyLogger
  mkdirParents : List String

/-- `logging.getLevelNamesMapping()` for the stdlib's fixed level table. -/
def levelNamesMapping : List (String × Nat) :=
  [("CRITICAL", 50), ("FATAL", 50), ("ERROR", 40), ("WARN", 30),
   ("WARNING", 30), ("INFO", 20), ("DEBUG", 10), ("NOTSET", 0)]

/-- `str.upper()` on the ASCII level names the mapping contains. -/
def pyUpper (s : String) : String := String.mk (s.data.map Char.toUpper)

/-- The body of the `for logger_name, config_dict in custom_configs.items()`
loop: disable propagation, clear the handlers, attach a `FileHandler` (with
the default handler's formatter, after creating the path's parent
directories) when a path is configured and the default handler otherwise,
then set the level when the uppercased name is a valid logging level. -/
def applyLoggerConfig (defaultFormatter : Option String) (st : LoggingState)
    (name : String) (cfg : LoggerConfig) : LoggingState :=
  let lg0 := st.loggers name
  let lg1 : PyLogger := { lg0 with propagate := false, handlers := [] }
  let withHandler :=
    match cfg.path with
    | some p =>
      ({ st with mkdirParents := st.mkdirParents ++ [p] },
       { lg1 with handlers := [HandlerRef.fileHandler p defaultFormatter] })
    | none => (st, { lg1 with handlers := [HandlerRef.defaultHandler] })
  let st2 := withHandler.1
  let lg2 := withHandler.2
  let lg3 :=
    match cfg.level with
    | some lv =>
      match levelNamesMapping.lookup (pyUpper lv) with
      | some n => { lg2 with level := n }
      | none => lg2
    | none => lg2
  { st2 with loggers := fun m => if m = name then lg3 else st2.loggers m }

/-- `env_config.setup_custom_loggers(default_handler)`: parse the
environment, then wire every configured logger. -/
def setupCustomLoggers (defaultFormatter : Option String)
    (env : List (String × String)) (st : LoggingState) : LoggingState :=
  (getCustomLoggerConfigs env).foldl
    (fun s p => applyLoggerConfig defaultFormatter s p.1 p.2) st

/-- The single handler the claim expects on a configured logger. -/
def expectedHandler (defaultFormatter : Option String) (cfg : LoggerConfig) :
    HandlerRef :=
  match cfg.path with
  | some p => HandlerRef.fileHandler p defaultFormatter
  | none => HandlerRef.defaultHandler

/-- The level the claim expects on a configured logger, given its prior
level. -/
def expectedLevel (cfg : LoggerConfig) (prior : Nat) : Nat :=
  match cfg.level with
  | some lv => (levelNamesMapping.lookup (pyUpper lv)).getD prior
  | none => prior

/-! ## In-memory output capture (`pytest_plugin/capture.py`)

Streams (`sys.stdout`, `sys.stderr`, `StringIO` buffers, handler streams)
are identified by `Nat` ids; `Option Nat` models a Python variable that can
hold a stream object or `None` (the `SimpleCapture` attributes start out as
`None`, and Python's `==` never equates a stream with `None`).  A state
carries the text accumulated in every stream. -/

/-- A root-logger handler as `SimpleCapture` sees it: whether
`isinstance(handler, logging.StreamHandler)` holds, and the stream the
handler writes to. -/
structure LogHandler where
  isStream : Bool
  stream : Option Nat
deriving DecidableEq

/-- `sys.stdout`/`sys.stderr`, the root logger's handlers, the text each
stream holds, and a supply of fresh ids for newly created `StringIO`
objects (every live stream id is below `nextId`). -/
structure SysState where
  stdout : Option Nat
  stderr : Option Nat
  handlers : List LogHandler
  contents : Nat → String
  nextId : Nat

/-- Bound check for an optional stream id. -/
def optIdLt (o : Option Nat) (n : Nat) : Bool :=
  match o with
  | none => true
  | some i => i < n

/-- Well-formedness: every stream id held by `sys.stdout`, `sys.stderr` or
a handler was allocated, i.e. is below `nextId`. -/
def SysState.wfb (st : SysState) : Bool :=
  optIdLt st.stdout st.nextId && optIdLt st.stderr st.nextId &&
    st.handlers.all (fun h => optIdLt h.stream st.nextId)

/-- The four attributes of a `SimpleCapture` instance; all `None` after
`__init__`. -/
structure SimpleCapture where
  stdoutCapture : Option Nat
  stderrCapture : Option Nat
  origStdout : Option Nat
  origStderr : Option Nat
deriving DecidableEq

/-- `CapturedOutput` from `capture.py`. -/
structure CapturedOutput where
  stdout : String
  stderr : String
  exception : Option String
deriving DecidableEq

/-- `SimpleCapture.start`: remember the current `sys.stdout`/`sys.stderr`,
install two fresh empty `StringIO` buffers in their place, and retarget
every root-logger `StreamHandler` whose stream was the old stdout (`elif`:
else the old stderr) onto the corresponding buffer. -/
def SimpleCapture.start (st : SysState) : SimpleCapture × SysState :=
  let so := st.nextId
  let se := st.nextId + 1
  let cap : SimpleCapture :=
    { stdoutCapture := some so, stderrCapture := some se,
      origStdout := st.stdout, origStderr := st.stderr }
  let handlers := st.handlers.map (fun h =>
    if h.isStream then
      if h.stream = st.stdout then { h with stream := some so }
      else if h.stream = st.stderr then { h with stream := some se }
      else h
    else h)
  (cap,
   { stdout := some so, stderr := some se, handlers := handlers,
     contents := fun i => if i = so ∨ i = se then "" else st.contents i,
     nextId := st.nextId + 2 })

/-- `SimpleCapture.stop`: retarget every root-logger `StreamHandler` whose
stream is the stdout buffer (`elif`: else the stderr buffer) back to the
remembered original, restore `sys.stdout`/`sys.stderr`, and return the
buffers' accumulated text (`""` for a buffer that is `None`). -/
def SimpleCapture.stop (cap : SimpleCapture) (st : SysState) :
    CapturedOutput × SysState :=
  let handlers := st.handlers.map (fun h =>
    if h.isStream then
      if h.stream = cap.stdoutCapture then { h with stream := cap.origStdout }
      else if h.stream = cap.stderrCapture then { h with stream := cap.origStderr }
      else h
    else h)
  let out : CapturedOutput :=
    { stdout := match cap.stdoutCapture with
        | some i => st.contents i
        | none => ""
      stderr := match cap.stderrCapture with
        | some i => st.contents i
        | none => ""
      exception := none }
  (out,
   { st with stdout := cap.origStdout, stderr := cap.origStderr,
             handlers := handlers })

/-- A Python-level write to one of the standard streams during a test
phase (`print`, a retargeted logging handler, any `sys.stdout.write`). -/
inductive WriteOp where
  | toStdout (s : String)
  | toStderr (s : String)
deriving DecidableEq

/-- Appending text to the stream currently held by `sys.stdout` /
`sys.stderr` (a no-op when the slot holds `None`, which never happens
between `start` and `stop`). -/
def applyWrite (st : SysState) (w : WriteOp) : SysState :=
  match w with
  | .toStdout s =>
    match st.stdout with
    | some i =>
      { st with contents := fun j => if j = i then st.contents j ++ s else st.contents j }
    | none => st
  | .toStderr s =>
    match st.stderr with
    | some i =>
      { st with contents := fun j => if j = i then st.contents j ++ s else st.contents j }
    | none => st

def applyWrites (st : SysState) (ws : List WriteOp) : SysState :=
  ws.foldl applyWrite st

/-- All text a write trace sends to `sys.stdout`, in order. -/
def writtenStdout : List WriteOp → String
  | [] => ""
  | .toStdout s :: ws => s ++ writtenStdout ws
  | .toStderr _ :: ws => writtenStdout ws

/-- All text a write trace sends to `sys.stderr`, in order. -/
def writtenStderr : List WriteOp → String
  | [] => ""
  | .toStdout _ :: ws => writtenStderr ws
  | .toStderr s :: ws => s ++ writtenStderr ws

/-! ## Subprocess file-descriptor capture
(`pytest_plugin/subprocess_capture.py`) -/

/-- What an OS file descriptor is connected to: whatever it pointed at
before the call, or one of the per-subprocess capture files after
`os.dup2`. -/
inductive FdTarget where
  | original (id : Nat)
  | captureFile (path : String)
deriving DecidableEq

/-- What a Python-level standard stream object writes into: the original
stream object, or a writer reopened on an OS fd (the `open(1, "w", ...)` /
`open(2, "w", ...)` objects, with `line_buffering` set by `reconfigure`). -/
inductive PyStream where
  | original (id : Nat)
  | fdWriter (fd : Nat) (lineBuffering : Bool)
deriving DecidableEq

/-- Process state read and written by `configure_subprocess_capture`: the
idempotency guard, the `STRUCTLOG_CAPTURE_DIR` variable (`none` when
unset), fds 1 and 2, `sys.stdout`/`sys.stderr`, and effect logs for
`mkdir(parents=True, exist_ok=True)`, the files opened in append mode, and
`logger.error` messages. -/
structure SubprocState where
  configured : Bool
  captureEnv : Option String
  fd1 : FdTarget
  fd2 : FdTarget
  sysStdout : PyStream
  sysStderr : PyStream
  createdDirs : List String
  openedFiles : List String
  errorLogs : List String
deriving DecidableEq

/-- The capture file paths `<dir>/subprocess-<pid>-stdout.txt` and
`<dir>/subprocess-<pid>-stderr.txt`. -/
def subprocessStdoutPath (dir : String) (pid : Nat) : String :=
  dir ++ "/subprocess-" ++ toString pid ++ "-stdout.txt"

def subprocessStderrPath (dir : String) (pid : Nat) : String :=
  dir ++ "/subprocess-" ++ toString pid ++ "-stderr.txt"

/-- `configure_subprocess_capture()`: return immediately when already
configured; log an error and return when `STRUCTLOG_CAPTURE_DIR` is unset
or empty (`if not output_dir`); otherwise create the directory, open the
two pid-keyed capture files, `dup2` them onto fds 1 and 2, reopen
`sys.stdout`/`sys.stderr` on those fds, and enable line buffering. -/
def configureSubprocessCapture (pid : Nat) (st : SubprocState) : SubprocState :=
  if st.configured then st
  else
    match st.captureEnv with
    | none =>
      { st with errorLogs := st.errorLogs ++ ["subprocess capture env not set"] }
    | some dir =>
      if dir = "" then
        { st with errorLogs := st.errorLogs ++ ["subprocess capture env not set"] }
      else
        { st with
          createdDirs := st.createdDirs ++ [dir],
          openedFiles := st.openedFiles ++
            [subprocessStdoutPath dir pid, subprocessStderrPath dir pid],
          fd1 := FdTarget.captureFile (subprocessStdoutPath dir pid),
          fd2 := FdTarget.captureFile (subprocessStderrPath dir pid),
          sysStdout := PyStream.fdWriter 1 true,
          sysStderr := PyStream.fdWriter 2 true,
          configured := true }

/-! ## ANSI stripping (`_ANSI_ESCAPE_RE.sub("", text)`)

The regex is `\x1b\[[0-9;]*m`.  `re.sub` scans left to right; at a match
(ESC, `[`, a maximal run of `[0-9;]`, then `m` — giving back a run
character can never produce the required `m`, so greediness is exact) the
matched text is dropped and scanning resumes after it, otherwise one
character is kept and scanning advances. -/

/-- After `ESC [`, consume the maximal `[0-9;]*` run and require `m`;
returns the suffix after the match (`m` is not a run character, so the
first non-run character decides the match and greediness is exact). -/
def afterAnsiParams : List Char → Option (List Char)
  | [] => none
  | c :: rest =>
    if c = 'm' then some rest
    else if isAnsiParam c then afterAnsiParams rest
    else none

/-- The suffix after an ANSI color escape matching at the head of the
list, `none` when no match starts here. -/
def ansiSkip : List Char → Option (List Char)
  | '\x1b' :: '[' :: r2 => afterAnsiParams r2
  | _ => none

/-- The scan loop of `re.sub`, with fuel for structural recursion: every
step consumes at least one character (a match consumes at least the two
characters `ESC [`), so `fuel = cs.length` never runs out and the
fuel-exhausted branch (which returns the rest unscanned) is unreachable. -/
def stripGo : Nat → List Char → List Char
  | _, [] => []
  | 0, c :: rest => c :: rest
  | fuel + 1, c :: rest =>
    match ansiSkip (c :: rest) with
    | some tail => stripGo fuel tail
    | none => c :: stripGo fuel rest

def stripAnsiChars (cs : List Char) : List Char := stripGo cs.length cs

/-- `_strip_ansi` from `pytest_plugin.py`. -/
def stripAnsi (s : String) : String := String.mk (stripAnsiChars s.data)

/-! ## Per-test protocol (`pytest_plugin.py`)

The protocol for one test is modelled end to end: the three phases each
contribute captured stdout/stderr text and an optional exception
(`pytest_runtest_makereport` receives the latter), then the `finally`
block of `pytest_runtest_protocol` writes the artifact files and cleans
up.  Filesystem writes can fail: a `oracle` predicate says which file
names raise `OSError` on `write_text`, and raising is modelled with
`Except`. -/

/-- The parts of a pytest `ExceptionInfo` the plugin reads:
`errisinstance(pytest.skip.Exception)`, `str(getrepr(style="long"))`, the
innermost traceback entry's path and 0-indexed line number, and
`exconly()`. -/
structure ExcRecord where
  isSkip : Bool
  reprLong : String
  tbPath : String
  tbLineno : Nat
  exconly : String
deriving DecidableEq

/-- A test phase, the `when` of a `CallInfo`. -/
inductive Phase where
  | setup
  | call
  | teardown
deriving DecidableEq

/-- What one phase of a test produced: the text written to the captured
stdout/stderr while the phase ran, the exception the phase raised (if
any), and the phase duration (for the `call` phase bookkeeping). -/
structure PhaseOutcome where
  when : Phase
  stdoutText : String
  stderrText : String
  excinfo : Option ExcRecord
  duration : Option Nat
deriving DecidableEq

/-- The attributes the plugin stores on a `pytest.Item`.  `none` for
`fullCaptured` / `excinfo` / the duration models the attribute being
absent (`hasattr` is `isSome`). -/
structure ItemState where
  nodeid : String
  fullCaptured : Option CapturedOutput
  excinfo : Option (List (Phase × ExcRecord))
  duration : Option Nat
deriving DecidableEq

/-- A freshly collected test item: none of the plugin's attributes set. -/
def freshItem (nodeid : String) : ItemState :=
  { nodeid := nodeid, fullCaptured := none, excinfo := none, duration := none }

/-- `_accumulate_captured_output`: create the accumulator on first use,
then `+=` the phase's stdout and stderr text. -/
def accumulateCapturedOutput (item : ItemState) (o : PhaseOutcome) : ItemState :=
  let existing := item.fullCaptured.getD
    { stdout := "", stderr := "", exception := none }
  let updated : CapturedOutput :=
    { existing with
      stdout := existing.stdout ++ o.stdoutText,
      stderr := existing.stderr ++ o.stderrText }
  { item with fullCaptured := some updated }

/-- `pytest_runtest_makereport`: record the call-phase duration, and append
`(when, excinfo)` to `item._excinfo` unless the phase passed or raised
pytest's skip exception (skips are treated as successful). -/
def makereportStep (item : ItemState) (o : PhaseOutcome) : ItemState :=
  let item1 :=
    if o.when = Phase.call then { item with duration := o.duration } else item
  match o.excinfo with
  | none => item1
  | some e =>
    if e.isSkip then item1
    else { item1 with excinfo := some ((item1.excinfo.getD []) ++ [(o.when, e)]) }

/-- One phase under `_simple_capture_phase` with capture enabled: the
wrapper accumulates the captured output, then the runner calls
`pytest_runtest_makereport` on the phase's `CallInfo`. -/
def runPhase (item : ItemState) (o : PhaseOutcome) : ItemState :=
  makereportStep (accumulateCapturedOutput item o) o

def runPhases (item : ItemState) (run : List PhaseOutcome) : ItemState :=
  run.foldl runPhase item

/-- The per-test artifact directory: whether it currently exists and the
files it holds (name, contents). -/
structure ArtifactDir where
  dirExists : Bool
  files : List (String × String)
deriving DecidableEq

/-- Models `get_artifact_dir` from the external pytest-plugin-utils
dependency: it returns the per-test artifact directory, creating it when
missing. -/
def ensureDir (d : ArtifactDir) : ArtifactDir := { d with dirExists := true }

/-- `_clean_artifact_dir`: nothing when the directory does not exist,
otherwise delete every entry in it (the directory itself stays). -/
def cleanArtifactDir (d : ArtifactDir) : ArtifactDir :=
  if d.dirExists then { d with files := [] } else d

/-- `Path.write_text` semantics on the directory listing: overwrite the
entry when present, otherwise append it. -/
def setFileContent (files : List (String × String)) (name content : String) :
    List (String × String) :=
  if files.any (fun p => p.1 == name) then
    files.map (fun p => if p.1 == name then (p.1, content) else p)
  else files ++ [(name, content)]

/-- The error `write_text` raises for a file the oracle rejects. -/
structure WriteErr where
  fileName : String
deriving DecidableEq

/-- `(test_dir / name).write_text(content)` with failure controlled by the
oracle. -/
def writeTextFile (oracle : String → Bool) (d : ArtifactDir)
    (name content : String) : Except WriteErr ArtifactDir :=
  if oracle name then Except.error { fileName := name }
  else Except.ok { d with files := setFileContent d.files name content }

/-- A guarded write: `if <truthy>: (test_dir / name).write_text(...)`. -/
def writeIf (oracle : String → Bool) (cond : Bool) (d : ArtifactDir)
    (name content : String) : Except WriteErr ArtifactDir :=
  if cond then writeTextFile oracle d name content else Except.ok d

/-- `"\n\n".join(parts)` (specialised separator form of `str.join`). -/
def joinSep (sep : String) : List String → String
  | [] => ""
  | [x] => x
  | x :: y :: rest => x ++ sep ++ joinSep sep (y :: rest)

/-- Python truthiness of `output.exception`: `None` and `""` are falsy. -/
def optTruthy (o : Option String) : Bool :=
  match o with
  | some s => s != ""
  | none => false

/-- `PERSIST_FAILED_ONLY` from the plugin constants. -/
def PERSIST_FAILED_ONLY : Bool := true

/-- A `CapturedTestFailure` entry of the captured-failures summary list. -/
structure CapturedTestFailure where
  location : String
  artifactDir : String
  exceptionSummary : Option String
  duration : Option Nat
deriving DecidableEq

/-- `_write_output_files(item)` (the flat `pytest_plugin.py` version): when
capture is enabled, join the recorded exception representations, write
`stdout.txt` / `stderr.txt` / `exception.txt` — each ANSI-stripped and only
when its content is truthy — and, when files were written for a test that
recorded a failure, append a `CapturedTestFailure` locating the first
exception's innermost traceback entry. -/
def writeOutputFiles (oracle : String → Bool) (enabled : Bool)
    (dirPath : String) (item : ItemState) (d : ArtifactDir)
    (captured : List CapturedTestFailure) :
    Except WriteErr (ArtifactDir × List CapturedTestFailure) :=
  if enabled = false then Except.ok (d, captured)
  else
    let testDir := ensureDir d
    let output := item.fullCaptured.getD
      { stdout := "", stderr := "", exception := none }
    let excList := item.excinfo.getD []
    let exceptionParts := excList.map (fun pe => pe.2.reprLong)
    let firstExcinfo := (excList.map Prod.snd).head?
    let outputException : Option String :=
      if exceptionParts.isEmpty then none
      else some (joinSep "\n\n" exceptionParts)
    (writeIf oracle (output.stdout != "") testDir "stdout.txt"
        (stripAnsi output.stdout)).bind fun d1 =>
    (writeIf oracle (output.stderr != "") d1 "stderr.txt"
        (stripAnsi output.stderr)).bind fun d2 =>
    (writeIf oracle (optTruthy outputException) d2 "exception.txt"
        (stripAnsi (outputException.getD ""))).bind fun d3 =>
    let filesWritten :=
      (output.stdout != "") || (output.stderr != "") || optTruthy outputException
    let willPersist :=
      filesWritten && (!PERSIST_FAILED_ONLY || item.excinfo.isSome)
    if willPersist = false then Except.ok (d3, captured)
    else
      let entry : CapturedTestFailure :=
        match firstExcinfo with
        | some fe =>
          { location := fe.tbPath ++ ":" ++ toString (fe.tbLineno + 1),
            artifactDir := dirPath,
            exceptionSummary := some fe.exconly,
            duration := item.duration }
        | none =>
          { location := item.nodeid,
            artifactDir := dirPath,
            exceptionSummary := none,
            duration := item.duration }
      Except.ok (d3, captured ++ [entry])

/-- The outcome of `pytest_runtest_protocol` for one test under the model:
the artifact directory, the summary list, the item's final attributes, and
the `STRUCTLOG_CAPTURE_DIR` variable after the hook. -/
structure ProtocolResult where
  dir : ArtifactDir
  captured : List CapturedTestFailure
  item : ItemState
  subprocessEnv : Option String
deriving DecidableEq

/-- `pytest_runtest_protocol` (with the per-phase wrappers and
`pytest_runtest_makereport` inlined): when capture is disabled the phases
run without capture; otherwise the artifact directory is fetched and
wiped, `STRUCTLOG_CAPTURE_DIR` is set for the duration of the phases, and
the `finally` block pops the variable, calls `_write_output_files` (whose
exceptions propagate — there is no handler around it), removes the
directory for tests that recorded no failure, and removes it when left
empty. -/
def runtestProtocol (oracle : String → Bool) (enabled : Bool)
    (dirPath : String) (item0 : ItemState) (d0 : ArtifactDir)
    (env0 : Option String) (captured0 : List CapturedTestFailure)
    (run : List PhaseOutcome) : Except WriteErr ProtocolResult :=
  if enabled = false then
    Except.ok
      { dir := d0, captured := captured0,
        item := run.foldl makereportStep item0, subprocessEnv := env0 }
  else
    let artifactDir := cleanArtifactDir (ensureDir d0)
    let item1 := runPhases item0 run
    (writeOutputFiles oracle true dirPath item1 artifactDir captured0).bind
      fun res =>
        let d2 := res.1
        let shouldClean :=
          PERSIST_FAILED_ONLY && item1.excinfo.isNone && d2.dirExists
        let dFinal :=
          if shouldClean then { dirExists := false, files := [] }
          else if d2.dirExists && d2.files.isEmpty then
            { d2 with dirExists := false }
          else d2
        Except.ok
          { dir := dFinal, captured := res.2, item := item1,
            subprocessEnv := none }

/-- Whether every phase of a run either passed or raised pytest's skip
exception (no non-skip exception anywhere). -/
def skipOnly (run : List PhaseOutcome) : Bool :=
  run.all (fun o => match o.excinfo with
    | some e => e.isSkip
    | none => true)

/-- Whether a run of phases records a failure: some phase raised an
exception that is not pytest's skip exception. -/
def testFailed (run : List PhaseOutcome) : Bool :=
  run.any (fun o => match o.excinfo with
    | some e => !e.isSkip
    | none => false)

/-- The `(when, excinfo)` pairs `pytest_runtest_makereport` records over a
run of phases. -/
def failEntries : List PhaseOutcome → List (Phase × ExcRecord)
  | [] => []
  | o :: run =>
    (match o.excinfo with
     | some e => if e.isSkip then [] else [(o.when, e)]
     | none => []) ++ failEntries run

/-- The stdout text accumulated across a run of phases. -/
def accStdout : List PhaseOutcome → String
  | [] => ""
  | o :: run => o.stdoutText ++ accStdout run

/-- The stderr text accumulated across a run of phases. -/
def accStderr : List PhaseOutcome → String
  | [] => ""
  | o :: run => o.stderrText ++ accStderr run

/-- The files C1 expects the artifact directory of a failed test to hold
at the end of the protocol. -/
def expectedFailureFiles (run : List PhaseOutcome) : List (String × String) :=
  let etext := joinSep "\n\n" ((failEntries run).map (fun pe => pe.2.reprLong))
  (if accStdout run != "" then [("stdout.txt", stripAnsi (accStdout run))] else []) ++
  (if accStderr run != "" then [("stderr.txt", stripAnsi (accStderr run))] else []) ++
  (if !(failEntries run).isEmpty && (etext != "") then
    [("exception.txt", stripAnsi etext)] else [])

/-- The artifact directory component of a protocol outcome, `none` when
the hook raised. -/
def protocolDir (res : Except WriteErr ProtocolResult) : Option ArtifactDir :=
  match res with
  | Except.ok r => some r.dir
  | Except.error _ => none

/-- The summary-list component of a protocol outcome, `none` when the hook
raised. -/
def protocolCaptured (res : Except WriteErr ProtocolResult) :
    Option (List CapturedTestFailure) :=
  match res with
  | Except.ok r => some r.captured
  | Except.error _ => none

/-- The files `_write_output_files` leaves in a freshly cleaned artifact
directory for a given item (each of the three files appears exactly when
its content is truthy). -/
def wofFiles (item : ItemState) : List (String × String) :=
  let output := item.fullCaptured.getD { stdout := "", stderr := "", exception := none }
  let parts := (item.excinfo.getD []).map (fun pe => pe.2.reprLong)
  let etext := joinSep "\n\n" parts
  (if output.stdout != "" then [("stdout.txt", stripAnsi output.stdout)] else []) ++
  (if output.stderr != "" then [("stderr.txt", stripAnsi output.stderr)] else []) ++
  (if !parts.isEmpty && (etext != "") then
    [("exception.txt", stripAnsi etext)] else [])

/-- The `CapturedTestFailure` entry `_write_output_files` builds for an
item: located at the first exception's innermost traceback entry
(1-indexed line), or at the item's nodeid when no exception was recorded. -/
def wofEntry (dirPath : String) (item : ItemState) : CapturedTestFailure :=
  match ((item.excinfo.getD []).map Prod.snd).head? with
  | some fe =>
    { location := fe.tbPath ++ ":" ++ toString (fe.tbLineno + 1),
      artifactDir := dirPath,
      exceptionSummary := some fe.exconly,
      duration := item.duration }
  | none =>
    { location := item.nodeid,
      artifactDir := dirPath,
      exceptionSummary := none,
      duration := item.duration }

/-- The summary list after `_write_output_files`: the entry is appended
exactly when files were written and the item recorded a failure. -/
def wofCaptured (dirPath : String) (item : ItemState)
    (captured : List CapturedTestFailure) : List CapturedTestFailure :=
  let output := item.fullCaptured.getD { stdout := "", stderr := "", exception := none }
  let parts := (item.excinfo.getD []).map (fun pe => pe.2.reprLong)
  let filesWritten :=
    (output.stdout != "") || (output.stderr != "") ||
      (!parts.isEmpty && (joinSep "\n\n" parts != ""))
  if filesWritten && item.excinfo.isSome then captured ++ [wofEntry dirPath item]
  else captured

/-! ## Concrete inputs used by the witnesses and counterexamples -/

/-- A process whose `sys.excepthook` slot holds a custom hook installed by
earlier code. -/
def excPrevState : ExcHookState :=
  { sysExcepthook := Hook.custom 0, threadingExcepthook := Hook.defaultHook,
    packageLog := [] }

/-- An ordinary uncaught exception. -/
def excSample : Exc := { isKeyboardInterrupt := false, excName := "ValueError" }

/-- An uncaught `KeyboardInterrupt`. -/
def kiSample : Exc := { isKeyboardInterrupt := true, excName := "KeyboardInterrupt" }

/-- A small environment exercising every `get_custom_logger_configs`
case: level only, path only, both merged, and an unrelated variable. -/
def sampleEnv : List (String × String) :=
  [("LOG_LEVEL_HTTPX", "DEBUG"),
   ("LOG_PATH_HTTPX", "/var/log/httpx.log"),
   ("LOG_LEVEL_MY_CUSTOM_LOGGER", "INFO"),
   ("LOG_PATH_SQLALCHEMY_ENGINE", "/var/log/sql.log"),
   ("HOME", "/root")]

/-- A logging registry where every logger still propagates, has no
handlers, and sits at level 7 (an arbitrary prior level). -/
def sampleLoggingState : LoggingState :=
  { loggers := fun _ => { propagate := true, handlers := [], level := 7 },
    mkdirParents := [] }

/-- A `sys` state with two real streams (ids 0 and 1), one root-logger
`StreamHandler` on stdout, one on stderr, and one non-stream handler. -/
def sampleSys : SysState :=
  { stdout := some 0, stderr := some 1,
    handlers := [{ isStream := true, stream := some 0 },
                 { isStream := true, stream := some 1 },
                 { isStream := false, stream := none }],
    contents := fun _ => "", nextId := 2 }

/-- Writes issued during a captured phase. -/
def sampleWrites : List WriteOp :=
  [WriteOp.toStdout "hello ", WriteOp.toStderr "oops", WriteOp.toStdout "world"]

/-- A subprocess that has not configured capture yet, with the capture
directory set by the parent. -/
def subprocSampleSet : SubprocState :=
  { configured := false, captureEnv := some "out/test_a",
    fd1 := FdTarget.original 1, fd2 := FdTarget.original 2,
    sysStdout := PyStream.original 10, sysStderr := PyStream.original 11,
    createdDirs := [], openedFiles := [], errorLogs := [] }

/-- The same subprocess with `STRUCTLOG_CAPTURE_DIR` unset. -/
def subprocSampleUnset : SubprocState :=
  { subprocSampleSet with captureEnv := none }

/-- The exception record of a failing `call` phase. -/
def failExc : ExcRecord :=
  { isSkip := false,
    reprLong := "def test_x():\n>       assert False\nE       AssertionError",
    tbPath := "tests/test_x.py", tbLineno := 9,
    exconly := "AssertionError: boom" }

/-- The exception record of a phase that raised `pytest.skip`. -/
def skipExc : ExcRecord :=
  { isSkip := true, reprLong := "Skipped: reason", tbPath := "tests/test_x.py",
    tbLineno := 3, exconly := "Skipped: reason" }

/-- A run whose call phase prints (with an ANSI color escape) and fails. -/
def sampleFailRun : List PhaseOutcome :=
  [{ when := Phase.setup, stdoutText := "setting up\n", stderrText := "",
     excinfo := none, duration := none },
   { when := Phase.call, stdoutText := "\x1b[31mred\x1b[0m text\n",
     stderrText := "warn\n", excinfo := some failExc, duration := some 2 },
   { when := Phase.teardown, stdoutText := "", stderrText := "",
     excinfo := none, duration := none }]

/-- A run where every phase passes but output was printed. -/
def samplePassRun : List PhaseOutcome :=
  [{ when := Phase.setup, stdoutText := "", stderrText := "",
     excinfo := none, duration := none },
   { when := Phase.call, stdoutText := "Hello from passing test\n",
     stderrText := "", excinfo := none, duration := some 1 },
   { when := Phase.teardown, stdoutText := "", stderrText := "",
     excinfo := none, duration := none }]

/-- A run where the call phase prints and then raises `pytest.skip`. -/
def sampleSkipRun : List PhaseOutcome :=
  [{ when := Phase.setup, stdoutText := "", stderrText := "",
     excinfo := none, duration := none },
   { when := Phase.call, stdoutText := "Hello from skipped test\n",
     stderrText := "", excinfo := some skipExc, duration := some 1 },
   { when := Phase.teardown, stdoutText := "", stderrText := "",
     excinfo := none, duration := none }]

/-- A filesystem oracle on which every write succeeds. -/
def okOracle : String → Bool := fun _ => false

/-- A filesystem oracle on which writing `stdout.txt` raises `OSError`. -/
def stdoutFailsOracle : String → Bool := fun n => n == "stdout.txt"

/-- A stale artifact directory left over from a previous run. -/
def staleDir : ArtifactDir :=
  { dirExists := true, files := [("stdout.txt", "old"), ("junk.txt", "x")] }

/-! # Theorems -/

/-- C9: for every `KeyboardInterrupt` (or subclass) reaching either
installed hook, the hook delegates to the interpreter's original default
`sys.__excepthook__` and emits no structlog record; the structlog logging
path runs only for exceptions that are not `KeyboardInterrupt`. -/
theorem keyboardInterrupt_delegates_to_default (e : Exc)
    (h : e.isKeyboardInterrupt = true) :
    invokeHook Hook.structlogHook e = [HookEffect.defaultPrinted e] ∧
    invokeHook Hook.exceptionLoggingHook e = [HookEffect.defaultPrinted e] ∧
    (∀ ev, HookEffect.structlogLogged ev e ∉ invokeHook Hook.structlogHook e) ∧
    (∀ ev, HookEffect.structlogLogged ev e ∉ invokeHook Hook.exceptionLoggingHook e) ∧
    (∀ e2 : Exc, e2.isKeyboardInterrupt = false →
      invokeHook Hook.structlogHook e2 =
        [HookEffect.structlogLogged "uncaught_exception" e2] ∧
      invokeHook Hook.exceptionLoggingHook e2 =
        [HookEffect.structlogLogged e2.excName e2]) := by
  refine ⟨by simp [invokeHook, h], by simp [invokeHook, h], ?_, ?_, ?_⟩
  · intro ev
    simp [invokeHook, h]
  · intro ev
    simp [invokeHook, h]
  · intro e2 h2
    exact ⟨by simp [invokeHook, h2], by simp [invokeHook, h2]⟩

/-- Witness for C9 at the concrete `KeyboardInterrupt` sample. -/
theorem keyboardInterrupt_delegates_witness :
    invokeHook Hook.structlogHook kiSample = [HookEffect.defaultPrinted kiSample] :=
  (keyboardInterrupt_delegates_to_default kiSample rfl).1

/-- C6 counterexample: with a custom hook previously installed, running
`install_exception_hook` leaves `sys.excepthook` holding the structlog
hook, and an ordinary uncaught exception no longer invokes the previous
hook — it is replaced, not chained. -/
theorem installExceptionHook_not_chained :
    (installExceptionHook excPrevState).sysExcepthook ≠ Hook.custom 0 ∧
    HookEffect.customRan 0 excSample ∉
      invokeHook (installExceptionHook excPrevState).sysExcepthook excSample := by
  decide

/-- C6 (amended): after `install_exception_hook` (resp.
`setup_exception_hook`) runs, the process-wide `sys.excepthook` slot holds
the structlog logging hook; the hook previously installed in that slot is
overwritten, not chained — it is never invoked again (an informational
message is logged when it was non-default), and the installed hook
delegates to the interpreter's original default `sys.__excepthook__` only
for `KeyboardInterrupt`. -/
theorem installExceptionHook_replaces_slot (st : ExcHookState) (e : Exc)
    (he : e.isKeyboardInterrupt = false) :
    (installExceptionHook st).sysExcepthook = Hook.structlogHook ∧
    (setupExceptionHook st).sysExcepthook = Hook.exceptionLoggingHook ∧
    invokeHook (installExceptionHook st).sysExcepthook e =
      [HookEffect.structlogLogged "uncaught_exception" e] ∧
    (∀ i, HookEffect.customRan i e ∉
      invokeHook (installExceptionHook st).sysExcepthook e) ∧
    (st.sysExcepthook ≠ Hook.defaultHook →
      "overriding non-default excepthook hook_type=sys" ∈
        (installExceptionHook st).packageLog) ∧
    (∀ e2 : Exc, e2.isKeyboardInterrupt = true →
      invokeHook (installExceptionHook st).sysExcepthook e2 =
        [HookEffect.defaultPrinted e2]) := by
  refine ⟨rfl, rfl, by simp [invokeHook, installExceptionHook, he], ?_, ?_, ?_⟩
  · intro i
    simp [invokeHook, installExceptionHook, he]
  · intro hne
    simp only [installExceptionHook, if_pos hne]
    by_cases ht : st.threadingExcepthook ≠ Hook.defaultHook
    · simp [if_pos ht]
    · simp [if_neg ht]
  · intro e2 h2
    simp [invokeHook, installExceptionHook, h2]

/-- Witness for C6's amended theorem at the concrete prior state. -/
theorem installExceptionHook_replaces_slot_witness :
    (installExceptionHook excPrevState).sysExcepthook = Hook.structlogHook ∧
    invokeHook (installExceptionHook excPrevState).sysExcepthook excSample =
      [HookEffect.structlogLogged "uncaught_exception" excSample] := by
  have h := installExceptionHook_replaces_slot excPrevState excSample rfl
  exact ⟨h.1, h.2.2.1⟩

/-- C5: `configure_subprocess_capture` with `STRUCTLOG_CAPTURE_DIR` set to
a (non-empty) directory creates `subprocess-<pid>-stdout.txt` and
`subprocess-<pid>-stderr.txt` under it (creating the directory), duplicates
their descriptors onto fds 1 and 2, and rebinds `sys.stdout`/`sys.stderr`
to writers on those fds; with the variable unset or empty it performs no
redirection and leaves the standard streams unchanged. -/
theorem configureSubprocessCapture_spec (pid : Nat) (st : SubprocState) :
    (st.configured = false → ∀ dir, st.captureEnv = some dir → dir ≠ "" →
      configureSubprocessCapture pid st =
        { st with
          createdDirs := st.createdDirs ++ [dir],
          openedFiles := st.openedFiles ++
            [subprocessStdoutPath dir pid, subprocessStderrPath dir pid],
          fd1 := FdTarget.captureFile (subprocessStdoutPath dir pid),
          fd2 := FdTarget.captureFile (subprocessStderrPath dir pid),
          sysStdout := PyStream.fdWriter 1 true,
          sysStderr := PyStream.fdWriter 2 true,
          configured := true }) ∧
    ((st.captureEnv = none ∨ st.captureEnv = some "") →
      (configureSubprocessCapture pid st).fd1 = st.fd1 ∧
      (configureSubprocessCapture pid st).fd2 = st.fd2 ∧
      (configureSubprocessCapture pid st).sysStdout = st.sysStdout ∧
      (configureSubprocessCapture pid st).sysStderr = st.sysStderr ∧
      (configureSubprocessCapture pid st).openedFiles = st.openedFiles ∧
      (configureSubprocessCapture pid st).createdDirs = st.createdDirs) := by
  constructor
  · intro hc dir henv hne
    simp [configureSubprocessCapture, hc, henv, hne]
  · intro henv
    by_cases hc : st.configured = true
    · simp [configureSubprocessCapture, hc]
    · rcases henv with h | h <;>
        simp [configureSubprocessCapture, hc, h]

/-- Witness for C5 at concrete states: the env-set branch (pid 42) and the
env-unset branch. -/
theorem configureSubprocessCapture_witness :
    configureSubprocessCapture 42 subprocSampleSet =
      { subprocSampleSet with
        createdDirs := ["out/test_a"],
        openedFiles := ["out/test_a/subprocess-42-stdout.txt",
                        "out/test_a/subprocess-42-stderr.txt"],
        fd1 := FdTarget.captureFile "out/test_a/subprocess-42-stdout.txt",
        fd2 := FdTarget.captureFile "out/test_a/subprocess-42-stderr.txt",
        sysStdout := PyStream.fdWriter 1 true,
        sysStderr := PyStream.fdWriter 2 true,
        configured := true } ∧
    (configureSubprocessCapture 7 subprocSampleUnset).sysStdout =
      subprocSampleUnset.sysStdout := by
  constructor
  · have h := (configureSubprocessCapture_spec 42 subprocSampleSet).1 rfl
      "out/test_a" rfl (by decide)
    rw [h]
    decide
  · exact ((configureSubprocessCapture_spec 7 subprocSampleUnset).2
      (Or.inl rfl)).2.2.1

/-- A write never changes which streams `sys.stdout`/`sys.stderr` hold,
the handlers, or the id supply — only stream contents. -/
theorem applyWrite_fields (st : SysState) (w : WriteOp) :
    (applyWrite st w).stdout = st.stdout ∧ (applyWrite st w).stderr = st.stderr ∧
    (applyWrite st w).handlers = st.handlers ∧
    (applyWrite st w).nextId = st.nextId := by
  cases w with
  | toStdout s => cases h : st.stdout <;> simp [applyWrite, h]
  | toStderr s => cases h : st.stderr <;> simp [applyWrite, h]

/-- `applyWrite_fields` lifted to a whole write trace. -/
theorem applyWrites_fields (ws : List WriteOp) (st : SysState) :
    (applyWrites st ws).stdout = st.stdout ∧
    (applyWrites st ws).stderr = st.stderr ∧
    (applyWrites st ws).handlers = st.handlers ∧
    (applyWrites st ws).nextId = st.nextId := by
  induction ws generalizing st with
  | nil => simp [applyWrites]
  | cons w ws ih =>
    have h1 := applyWrite_fields st w
    have h2 := ih (applyWrite st w)
    simp only [applyWrites, List.foldl_cons] at h2 ⊢
    exact ⟨h2.1.trans h1.1, h2.2.1.trans h1.2.1, h2.2.2.1.trans h1.2.2.1,
      h2.2.2.2.trans h1.2.2.2⟩

/-- Contents after a write trace: the streams currently held by
`sys.stdout` and `sys.stderr` accumulate exactly the trace's text, every
other stream is untouched. -/
theorem applyWrites_contents (ws : List WriteOp) (st : SysState) (so se : Nat)
    (hso : st.stdout = some so) (hse : st.stderr = some se) (hne : so ≠ se) :
    (applyWrites st ws).contents so = st.contents so ++ writtenStdout ws ∧
    (applyWrites st ws).contents se = st.contents se ++ writtenStderr ws ∧
    (∀ i, i ≠ so → i ≠ se → (applyWrites st ws).contents i = st.contents i) := by
  induction ws generalizing st with
  | nil =>
    simp [applyWrites, writtenStdout, writtenStderr]
  | cons w ws ih =>
    have hpres := applyWrite_fields st w
    have ihh := ih (applyWrite st w) (hpres.1.trans hso) (hpres.2.1.trans hse)
    simp only [applyWrites, List.foldl_cons] at ihh ⊢
    cases w with
    | toStdout s =>
      have hstep : applyWrite st (WriteOp.toStdout s) =
          { st with contents :=
              fun j => if j = so then st.contents j ++ s else st.contents j } := by
        simp [applyWrite, hso]
      rw [hstep] at ihh ⊢
      refine ⟨?_, ?_, ?_⟩
      · rw [ihh.1]
        simp [writtenStdout, String.append_assoc]
      · rw [ihh.2.1]
        simp [writtenStderr, if_neg (Ne.symm hne)]
      · intro i hi1 hi2
        rw [ihh.2.2 i hi1 hi2]
        simp [if_neg hi1]
    | toStderr s =>
      have hstep : applyWrite st (WriteOp.toStderr s) =
          { st with contents :=
              fun j => if j = se then st.contents j ++ s else st.contents j } := by
        simp [applyWrite, hse]
      rw [hstep] at ihh ⊢
      refine ⟨?_, ?_, ?_⟩
      · rw [ihh.1]
        simp [writtenStdout, if_neg hne]
      · rw [ihh.2.1]
        simp [writtenStderr, String.append_assoc]
      · intro i hi1 hi2
        rw [ihh.2.2 i hi1 hi2]
        simp [if_neg hi2]

/-- C3: `SimpleCapture.start` swaps `sys.stdout`/`sys.stderr` for fresh
empty buffers and retargets every root-logger `StreamHandler` whose stream
was the original stdout (resp. stderr) to the corresponding buffer, so
writes to the standard streams during the phase accumulate in the buffers
and none reach the original streams. -/
theorem simpleCapture_start_captures (st : SysState) (ws : List WriteOp)
    (hwf : st.wfb = true) :
    (SimpleCapture.start st).2.stdout = some st.nextId ∧
    (SimpleCapture.start st).2.stderr = some (st.nextId + 1) ∧
    (SimpleCapture.start st).2.contents st.nextId = "" ∧
    (SimpleCapture.start st).2.contents (st.nextId + 1) = "" ∧
    st.stdout ≠ some st.nextId ∧ st.stderr ≠ some (st.nextId + 1) ∧
    (∀ h ∈ st.handlers, h.isStream = true → h.stream = st.stdout →
      ({ h with stream := some st.nextId } : LogHandler) ∈
        (SimpleCapture.start st).2.handlers) ∧
    (∀ h ∈ st.handlers, h.isStream = true → h.stream ≠ st.stdout →
      h.stream = st.stderr →
      ({ h with stream := some (st.nextId + 1) } : LogHandler) ∈
        (SimpleCapture.start st).2.handlers) ∧
    (applyWrites (SimpleCapture.start st).2 ws).contents st.nextId =
      writtenStdout ws ∧
    (applyWrites (SimpleCapture.start st).2 ws).contents (st.nextId + 1) =
      writtenStderr ws ∧
    (∀ j, st.stdout = some j ∨ st.stderr = some j →
      (applyWrites (SimpleCapture.start st).2 ws).contents j = st.contents j) := by
  have hwf3 := hwf
  simp only [SysState.wfb, Bool.and_eq_true, List.all_eq_true] at hwf3
  obtain ⟨⟨hbout, hberr⟩, hbh⟩ := hwf3
  have hs1 : (SimpleCapture.start st).2.stdout = some st.nextId := rfl
  have hs2 : (SimpleCapture.start st).2.stderr = some (st.nextId + 1) := rfl
  have hcw := applyWrites_contents ws (SimpleCapture.start st).2 st.nextId
    (st.nextId + 1) hs1 hs2 (by omega)
  have hc0 : (SimpleCapture.start st).2.contents st.nextId = "" := by
    simp [SimpleCapture.start]
  have hc1 : (SimpleCapture.start st).2.contents (st.nextId + 1) = "" := by
    simp [SimpleCapture.start]
  have houtne : st.stdout ≠ some st.nextId := by
    intro h
    rw [h] at hbout
    simp [optIdLt] at hbout
  have herrne : st.stderr ≠ some (st.nextId + 1) := by
    intro h
    rw [h] at hberr
    simp [optIdLt] at hberr
  refine ⟨hs1, hs2, hc0, hc1, houtne, herrne, ?_, ?_, ?_, ?_, ?_⟩
  · intro h hmem hstream heq
    show _ ∈ st.handlers.map _
    refine List.mem_map.mpr ⟨h, hmem, ?_⟩
    simp [hstream, heq]
  · intro h hmem hstream hne heq
    show _ ∈ st.handlers.map _
    refine List.mem_map.mpr ⟨h, hmem, ?_⟩
    rw [heq] at hne
    simp [hstream, heq, hne]
  · rw [hcw.1, hc0, String.empty_append]
  · rw [hcw.2.1, hc1, String.empty_append]
  · intro j hj
    have hjlt : j < st.nextId := by
      rcases hj with h | h
      · rw [h] at hbout
        simpa [optIdLt] using hbout
      · rw [h] at hberr
        simpa [optIdLt] using hberr
    rw [hcw.2.2 j (by omega) (by omega)]
    simp [SimpleCapture.start, Nat.ne_of_lt hjlt,
      show j ≠ st.nextId + 1 by omega]

/-- Witness for C3 at a concrete state and write trace. -/
theorem simpleCapture_start_captures_witness :
    (applyWrites (SimpleCapture.start sampleSys).2 sampleWrites).contents 2 =
      "hello world" ∧
    (applyWrites (SimpleCapture.start sampleSys).2 sampleWrites).contents 0 =
      "" := by
  have h := simpleCapture_start_captures sampleSys sampleWrites rfl
  refine ⟨?_, ?_⟩
  · exact (h.2.2.2.2.2.2.2.2.1).trans (by rfl)
  · exact (h.2.2.2.2.2.2.2.2.2.2 0 (Or.inl rfl)).trans (by rfl)

/-- C4: round trip — `start` then `stop` restores `sys.stdout`,
`sys.stderr` and every retargeted root-logger `StreamHandler` to exactly
their pre-start values, and the returned `CapturedOutput` holds exactly
the text written to the replacement streams in between. -/
theorem simpleCapture_roundtrip (st : SysState) (ws : List WriteOp)
    (hwf : st.wfb = true) :
    ((SimpleCapture.start st).1.stop
      (applyWrites (SimpleCapture.start st).2 ws)).2.stdout = st.stdout ∧
    ((SimpleCapture.start st).1.stop
      (applyWrites (SimpleCapture.start st).2 ws)).2.stderr = st.stderr ∧
    ((SimpleCapture.start st).1.stop
      (applyWrites (SimpleCapture.start st).2 ws)).2.handlers = st.handlers ∧
    ((SimpleCapture.start st).1.stop
      (applyWrites (SimpleCapture.start st).2 ws)).1.stdout = writtenStdout ws ∧
    ((SimpleCapture.start st).1.stop
      (applyWrites (SimpleCapture.start st).2 ws)).1.stderr = writtenStderr ws := by
  have hwf3 := hwf
  simp only [SysState.wfb, Bool.and_eq_true, List.all_eq_true] at hwf3
  obtain ⟨⟨hbout, hberr⟩, hbh⟩ := hwf3
  have hs1 : (SimpleCapture.start st).2.stdout = some st.nextId := rfl
  have hs2 : (SimpleCapture.start st).2.stderr = some (st.nextId + 1) := rfl
  have hcw := applyWrites_contents ws (SimpleCapture.start st).2 st.nextId
    (st.nextId + 1) hs1 hs2 (by omega)
  have hc0 : (SimpleCapture.start st).2.contents st.nextId = "" := by
    simp [SimpleCapture.start]
  have hc1 : (SimpleCapture.start st).2.contents (st.nextId + 1) = "" := by
    simp [SimpleCapture.start]
  have hpres := applyWrites_fields ws (SimpleCapture.start st).2
  refine ⟨rfl, rfl, ?_, ?_, ?_⟩
  · show (applyWrites (SimpleCapture.start st).2 ws).handlers.map _ = _
    rw [hpres.2.2.1]
    show ((st.handlers.map _).map _) = st.handlers
    rw [List.map_map]
    have hpt : ∀ h ∈ st.handlers,
        (fun h : LogHandler =>
          if h.isStream then
            if h.stream = (SimpleCapture.start st).1.stdoutCapture then
              { h with stream := (SimpleCapture.start st).1.origStdout }
            else if h.stream = (SimpleCapture.start st).1.stderrCapture then
              { h with stream := (SimpleCapture.start st).1.origStderr }
            else h
          else h)
        ((fun h : LogHandler =>
          if h.isStream then
            if h.stream = st.stdout then { h with stream := some st.nextId }
            else if h.stream = st.stderr then
              { h with stream := some (st.nextId + 1) }
            else h
          else h) h) = h := by
      intro h hmem
      have hcap1 : (SimpleCapture.start st).1.stdoutCapture = some st.nextId := rfl
      have hcap2 : (SimpleCapture.start st).1.stderrCapture =
        some (st.nextId + 1) := rfl
      have hcap3 : (SimpleCapture.start st).1.origStdout = st.stdout := rfl
      have hcap4 : (SimpleCapture.start st).1.origStderr = st.stderr := rfl
      have hb := hbh h hmem
      have hne1 : st.nextId + 1 ≠ st.nextId := by omega
      obtain ⟨b, s⟩ := h
      by_cases hi : b = true
      · subst hi
        by_cases h1 : s = st.stdout
        · subst h1
          simp [hcap1, hcap2, hcap3, hcap4]
        · by_cases h2 : s = st.stderr
          · subst h2
            simp [hcap1, hcap2, hcap3, hcap4, h1, hne1]
          · have hb1 : s ≠ some st.nextId := by
              intro hcon
              rw [hcon] at hb
              simp [optIdLt] at hb
            have hb2 : s ≠ some (st.nextId + 1) := by
              intro hcon
              rw [hcon] at hb
              simp [optIdLt] at hb
            simp [hcap1, hcap2, h1, h2, hb1, hb2]
      · simp only [Bool.not_eq_true] at hi
        subst hi
        simp
    calc st.handlers.map _ = st.handlers.map (fun h => h) :=
          List.map_congr_left hpt
      _ = st.handlers := by simp
  · show (applyWrites (SimpleCapture.start st).2 ws).contents st.nextId = _
    rw [hcw.1, hc0, String.empty_append]
  · show (applyWrites (SimpleCapture.start st).2 ws).contents (st.nextId + 1) = _
    rw [hcw.2.1, hc1, String.empty_append]

/-- Witness for C4 at a concrete state and write trace. -/
theorem simpleCapture_roundtrip_witness :
    ((SimpleCapture.start sampleSys).1.stop
      (applyWrites (SimpleCapture.start sampleSys).2 sampleWrites)).2.handlers =
      sampleSys.handlers ∧
    ((SimpleCapture.start sampleSys).1.stop
      (applyWrites (SimpleCapture.start sampleSys).2 sampleWrites)).1.stdout =
      "hello world" ∧
    ((SimpleCapture.start sampleSys).1.stop
      (applyWrites (SimpleCapture.start sampleSys).2 sampleWrites)).1.stderr =
      "oops" := by
  have h := simpleCapture_roundtrip sampleSys sampleWrites rfl
  refine ⟨h.2.2.1, ?_, ?_⟩
  · rw [h.2.2.2.1]
    rfl
  · rw [h.2.2.2.2]
    rfl

/-- One phase never changes the item's recorded exceptions except by
appending the phase's own non-skip exception. -/
theorem runPhase_excinfo (item : ItemState) (o : PhaseOutcome) :
    (runPhase item o).excinfo =
      match o.excinfo with
      | some e =>
        if e.isSkip then item.excinfo
        else some (item.excinfo.getD [] ++ [(o.when, e)])
      | none => item.excinfo := by
  rcases he : o.excinfo with _ | e
  · by_cases hw : o.when = Phase.call <;>
      simp [runPhase, makereportStep, accumulateCapturedOutput, he, hw]
  · by_cases hs : e.isSkip = true <;> by_cases hw : o.when = Phase.call <;>
      simp [runPhase, makereportStep, accumulateCapturedOutput, he, hw, hs]

/-- One phase appends its captured stdout/stderr text to the item's
accumulator (creating it on first use) and touches nothing else in it. -/
theorem runPhase_fullCaptured (item : ItemState) (o : PhaseOutcome) :
    (runPhase item o).fullCaptured = some
      { stdout := (item.fullCaptured.getD
          { stdout := "", stderr := "", exception := none }).stdout ++ o.stdoutText,
        stderr := (item.fullCaptured.getD
          { stdout := "", stderr := "", exception := none }).stderr ++ o.stderrText,
        exception := (item.fullCaptured.getD
          { stdout := "", stderr := "", exception := none }).exception } := by
  rcases he : o.excinfo with _ | e
  · by_cases hw : o.when = Phase.call <;>
      simp [runPhase, makereportStep, accumulateCapturedOutput, he, hw]
  · by_cases hs : e.isSkip = true <;> by_cases hw : o.when = Phase.call <;>
      simp [runPhase, makereportStep, accumulateCapturedOutput, he, hw, hs]

/-- Across a whole run, the accumulator holds the concatenation of all
phase output appended to whatever it held before. -/
theorem runPhases_fullCaptured (run : List PhaseOutcome) : ∀ item : ItemState,
    (runPhases item run).fullCaptured.getD
        { stdout := "", stderr := "", exception := none } =
      { stdout := (item.fullCaptured.getD
          { stdout := "", stderr := "", exception := none }).stdout ++ accStdout run,
        stderr := (item.fullCaptured.getD
          { stdout := "", stderr := "", exception := none }).stderr ++ accStderr run,
        exception := (item.fullCaptured.getD
          { stdout := "", stderr := "", exception := none }).exception } := by
  induction run with
  | nil =>
    intro item
    simp [runPhases, accStdout, accStderr, String.append_empty]
  | cons o rest ih =>
    intro item
    show (runPhases (runPhase item o) rest).fullCaptured.getD _ = _
    rw [ih (runPhase item o), runPhase_fullCaptured]
    simp [accStdout, accStderr, String.append_assoc]

/-- Across a whole run, the recorded exceptions are whatever was there
before followed by the run's non-skip exceptions, and the attribute stays
absent when there are none. -/
theorem runPhases_excinfo (run : List PhaseOutcome) : ∀ item : ItemState,
    (runPhases item run).excinfo =
      if failEntries run = [] then item.excinfo
      else some (item.excinfo.getD [] ++ failEntries run) := by
  induction run with
  | nil =>
    intro item
    simp [runPhases, failEntries]
  | cons o rest ih =>
    intro item
    show (runPhases (runPhase item o) rest).excinfo = _
    rw [ih (runPhase item o), runPhase_excinfo]
    rcases he : o.excinfo with _ | e
    · simp [failEntries, he]
    · by_cases hs : e.isSkip = true
      · simp [failEntries, he, hs]
      · by_cases hr : failEntries rest = []
        · simp [failEntries, he, hs, hr]
        · simp [failEntries, he, hs, hr]

/-- `testFailed` agrees with `failEntries` being non-empty. -/
theorem testFailed_iff (run : List PhaseOutcome) :
    testFailed run = true ↔ failEntries run ≠ [] := by
  induction run with
  | nil => simp [testFailed, failEntries]
  | cons o rest ih =>
    rcases he : o.excinfo with _ | e
    · simpa [testFailed, failEntries, he] using ih
    · by_cases hs : e.isSkip = true
      · simpa [testFailed, failEntries, he, hs] using ih
      · simp [testFailed, failEntries, he, hs]

/-- A run of passing/skipping phases records no failure entries. -/
theorem skipOnly_failEntries (run : List PhaseOutcome)
    (h : skipOnly run = true) : failEntries run = [] := by
  induction run with
  | nil => simp [failEntries]
  | cons o rest ih =>
    simp only [skipOnly, List.all_cons, Bool.and_eq_true] at h
    have hrest := ih (by simpa [skipOnly] using h.2)
    rcases he : o.excinfo with _ | e
    · simp [failEntries, he, hrest]
    · have hs : e.isSkip = true := by
        have := h.1
        rw [he] at this
        exact this
      simp [failEntries, he, hs, hrest]

/-- `Except.bind` on a success. -/
theorem exceptBindOk {α β γ : Type} (a : α) (f : α → Except γ β) :
    (Except.ok a : Except γ α).bind f = f a := rfl

/-- A guarded write on an oracle that accepts the file. -/
theorem writeIf_ok (oracle : String → Bool) (cond : Bool) (d : ArtifactDir)
    (name content : String) (hO : oracle name = false) :
    writeIf oracle cond d name content =
      Except.ok
        (if cond then { d with files := setFileContent d.files name content }
         else d) := by
  cases cond <;> simp [writeIf, writeTextFile, hO]

/-- Evaluation of `_write_output_files` on a freshly cleaned artifact
directory when every write succeeds. -/
theorem writeOutputFiles_eval (oracle : String → Bool)
    (hO : ∀ n, oracle n = false) (dirPath : String) (item : ItemState)
    (captured : List CapturedTestFailure) (b : Bool) :
    writeOutputFiles oracle true dirPath item { dirExists := b, files := [] }
        captured =
      Except.ok ({ dirExists := true, files := wofFiles item },
        wofCaptured dirPath item captured) := by
  have hb1 : (("stdout.txt" : String) == "stderr.txt") = false := by decide
  have hb2 : (("stdout.txt" : String) == "exception.txt") = false := by decide
  have hb3 : (("stderr.txt" : String) == "exception.txt") = false := by decide
  by_cases h1 : ((item.fullCaptured.getD
      { stdout := "", stderr := "", exception := none }).stdout != "") = true <;>
  by_cases h2 : ((item.fullCaptured.getD
      { stdout := "", stderr := "", exception := none }).stderr != "") = true <;>
  by_cases hE : item.excinfo.getD [] = [] <;>
  by_cases hJ : ((joinSep "\n\n" ((item.excinfo.getD []).map
      (fun pe => pe.2.reprLong))) != "") = true <;>
  simp [writeOutputFiles, writeIf, writeTextFile, hO, h1, h2, hE, hJ,
    setFileContent, hb1, hb2, hb3, PERSIST_FAILED_ONLY, wofFiles, wofCaptured,
    wofEntry, ensureDir, optTruthy, exceptBindOk] <;>
  cases hx : item.excinfo <;> simp_all

/-- `get_artifact_dir` followed by `_clean_artifact_dir` always yields an
existing, empty artifact directory. -/
theorem cleanArtifactDir_ensureDir (d : ArtifactDir) :
    cleanArtifactDir (ensureDir d) = { dirExists := true, files := [] } := by
  simp [cleanArtifactDir, ensureDir]

/-- End-to-end evaluation of the enabled per-test protocol when every
write succeeds: the phases run, the files land in the wiped directory, and
the cleanup deletes the directory for items without recorded failures and
removes it when left empty. -/
theorem runtestProtocol_eval (oracle : String → Bool)
    (hO : ∀ n, oracle n = false) (dirPath : String) (item0 : ItemState)
    (d0 : ArtifactDir) (env0 : Option String)
    (captured0 : List CapturedTestFailure) (run : List PhaseOutcome) :
    runtestProtocol oracle true dirPath item0 d0 env0 captured0 run =
      Except.ok
        { dir :=
            if (runPhases item0 run).excinfo.isNone then
              { dirExists := false, files := [] }
            else if (wofFiles (runPhases item0 run)).isEmpty then
              { dirExists := false, files := wofFiles (runPhases item0 run) }
            else { dirExists := true, files := wofFiles (runPhases item0 run) },
          captured := wofCaptured dirPath (runPhases item0 run) captured0,
          item := runPhases item0 run,
          subprocessEnv := none } := by
  simp only [runtestProtocol, cleanArtifactDir_ensureDir]
  rw [writeOutputFiles_eval oracle hO]
  by_cases hn : (runPhases item0 run).excinfo.isNone = true <;>
  by_cases hf : wofFiles (runPhases item0 run) = [] <;>
  simp [exceptBindOk, PERSIST_FAILED_ONLY, hn, hf, List.isEmpty_iff]

/-- C1: with capture enabled and every write succeeding, a test that fails
(some phase records a non-skip exception) ends the protocol with its
artifact directory holding exactly `stdout.txt`, `stderr.txt` and
`exception.txt` with the ANSI-stripped accumulated output and joined
exception representations — each present exactly when its content is
non-empty — while a test with no recorded failure ends with its artifact
directory deleted, so captured output reaches disk only on failure. -/
theorem capturedOutput_reaches_disk_only_on_failure (oracle : String → Bool)
    (dirPath nid : String) (d0 : ArtifactDir) (env0 : Option String)
    (captured0 : List CapturedTestFailure) (run : List PhaseOutcome)
    (hO : ∀ n, oracle n = false) :
    (testFailed run = true →
      protocolDir
          (runtestProtocol oracle true dirPath (freshItem nid) d0 env0
            captured0 run) =
        some { dirExists := !(expectedFailureFiles run).isEmpty,
               files := expectedFailureFiles run }) ∧
    (testFailed run = false →
      protocolDir
          (runtestProtocol oracle true dirPath (freshItem nid) d0 env0
            captured0 run) =
        some { dirExists := false, files := [] }) := by
  have heval := runtestProtocol_eval oracle hO dirPath (freshItem nid) d0 env0
    captured0 run
  constructor
  · intro hfail
    have hfe : failEntries run ≠ [] := (testFailed_iff run).mp hfail
    have hexc : (runPhases (freshItem nid) run).excinfo =
        some (failEntries run) := by
      rw [runPhases_excinfo]
      simp [freshItem, hfe]
    have hwof : wofFiles (runPhases (freshItem nid) run) =
        expectedFailureFiles run := by
      unfold wofFiles expectedFailureFiles
      rw [hexc, runPhases_fullCaptured]
      simp [freshItem, String.empty_append]
    rw [heval]
    simp only [protocolDir]
    rw [hexc, hwof]
    by_cases he : (expectedFailureFiles run).isEmpty = true
    · have hnil : expectedFailureFiles run = [] := by
        simpa using he
      simp [he, hnil]
    · simp [he]
  · intro hpass
    have hfe : failEntries run = [] := by
      by_contra hne
      rw [(testFailed_iff run).mpr hne] at hpass
      simp at hpass
    have hexc : (runPhases (freshItem nid) run).excinfo = none := by
      rw [runPhases_excinfo]
      simp [freshItem, hfe]
    rw [heval]
    simp [protocolDir, hexc]

/-- Witness for C1: a concrete failing run (with an ANSI escape in its
output) persists the three stripped files; a concrete passing run ends
with the directory deleted. -/
theorem capturedOutput_reaches_disk_witness :
    expectedFailureFiles sampleFailRun =
      [("stdout.txt", "setting up\nred text\n"),
       ("stderr.txt", "warn\n"),
       ("exception.txt", failExc.reprLong)] ∧
    protocolDir
        (runtestProtocol okOracle true "out/test_x"
          (freshItem "tests/test_x.py::test_x") staleDir (some "p") []
          sampleFailRun) =
      some { dirExists := !(expectedFailureFiles sampleFailRun).isEmpty,
             files := expectedFailureFiles sampleFailRun } ∧
    protocolDir
        (runtestProtocol okOracle true "out/test_p"
          (freshItem "tests/test_p.py::test_p") staleDir none []
          samplePassRun) =
      some { dirExists := false, files := [] } := by
  refine ⟨by decide, ?_, ?_⟩
  · exact (capturedOutput_reaches_disk_only_on_failure okOracle "out/test_x"
      "tests/test_x.py::test_x" staleDir (some "p") [] sampleFailRun
      (fun _ => rfl)).1 (by decide)
  · exact (capturedOutput_reaches_disk_only_on_failure okOracle "out/test_p"
      "tests/test_p.py::test_p" staleDir none [] samplePassRun
      (fun _ => rfl)).2 (by decide)

/-- C2 counterexample: with a concrete failing test whose `stdout.txt`
write raises `OSError`, the per-test protocol hook propagates the error
instead of swallowing it — persistence is not best-effort. -/
theorem writeError_escapes_protocol_hook :
    runtestProtocol stdoutFailsOracle true "out/test_err"
        (freshItem "tests/test_err.py::test_err") { dirExists := false, files := [] }
        (some "prev") [] sampleFailRun =
      Except.error { fileName := "stdout.txt" } := by
  rfl

/-- C2 (amended): persisting captured output is not best-effort — there is
no exception handling around `_write_output_files` or the artifact
cleanup in `pytest_runtest_protocol`'s `finally` block, so an error raised
while writing the per-test artifact files propagates out of the per-test
protocol hook (and pytest then reports it against the test run). -/
theorem writeError_propagates (oracle : String → Bool) (dirPath : String)
    (item0 : ItemState) (d0 : ArtifactDir) (env0 : Option String)
    (captured0 : List CapturedTestFailure) (run : List PhaseOutcome)
    (e : WriteErr)
    (h : writeOutputFiles oracle true dirPath (runPhases item0 run)
        (cleanArtifactDir (ensureDir d0)) captured0 = Except.error e) :
    runtestProtocol oracle true dirPath item0 d0 env0 captured0 run =
      Except.error e := by
  unfold runtestProtocol
  simp only [Bool.true_eq_false, if_false]
  rw [h]
  rfl

/-- Witness for C2's amended theorem at a concrete failing write. -/
theorem writeError_propagates_witness :
    runtestProtocol stdoutFailsOracle true "out/test_w"
        (freshItem "tests/test_w.py::test_w") staleDir none [] sampleFailRun =
      Except.error { fileName := "stdout.txt" } :=
  writeError_propagates stdoutFailsOracle "out/test_w"
    (freshItem "tests/test_w.py::test_w") staleDir none [] sampleFailRun
    { fileName := "stdout.txt" } (by rfl)

/-- C10: a test that only passes or raises pytest's skip exception is
treated as successful — no exception info is recorded on the item, the
captured-failures summary list is unchanged, and the artifact directory is
removed exactly as for a passing test, so a skipped test leaves no capture
files on disk. -/
theorem skipped_test_leaves_no_files (oracle : String → Bool)
    (dirPath nid : String) (d0 : ArtifactDir) (env0 : Option String)
    (captured0 : List CapturedTestFailure) (run : List PhaseOutcome)
    (hO : ∀ n, oracle n = false) (hskip : skipOnly run = true) :
    (runPhases (freshItem nid) run).excinfo = none ∧
    protocolDir
        (runtestProtocol oracle true dirPath (freshItem nid) d0 env0
          captured0 run) =
      some { dirExists := false, files := [] } ∧
    protocolCaptured
        (runtestProtocol oracle true dirPath (freshItem nid) d0 env0
          captured0 run) =
      some captured0 := by
  have hfe := skipOnly_failEntries run hskip
  have hexc : (runPhases (freshItem nid) run).excinfo = none := by
    rw [runPhases_excinfo]
    simp [freshItem, hfe]
  have heval := runtestProtocol_eval oracle hO dirPath (freshItem nid) d0 env0
    captured0 run
  refine ⟨hexc, ?_, ?_⟩
  · rw [heval]
    simp [protocolDir, hexc]
  · rw [heval]
    simp only [protocolCaptured]
    simp [wofCaptured, hexc]

/-- Witness for C10 at a concrete run that prints and then skips. -/
theorem skipped_test_leaves_no_files_witness :
    (runPhases (freshItem "tests/test_s.py::test_s") sampleSkipRun).excinfo =
      none ∧
    protocolDir
        (runtestProtocol okOracle true "out/test_s"
          (freshItem "tests/test_s.py::test_s") staleDir none
          [wofEntry "x" (freshItem "y")] sampleSkipRun) =
      some { dirExists := false, files := [] } ∧
    protocolCaptured
        (runtestProtocol okOracle true "out/test_s"
          (freshItem "tests/test_s.py::test_s") staleDir none
          [wofEntry "x" (freshItem "y")] sampleSkipRun) =
      some [wofEntry "x" (freshItem "y")] :=
  skipped_test_leaves_no_files okOracle "out/test_s" "tests/test_s.py::test_s"
    staleDir none [wofEntry "x" (freshItem "y")] sampleSkipRun
    (fun _ => rfl) (by decide)

/-- A name cannot start with both `LOG_LEVEL_` and `LOG_PATH_` (they
differ at the fifth character). -/
theorem startsWith_prefixes_disjoint (cs : List Char)
    (h : listStartsWith cs logLevelPrefix = true) :
    listStartsWith cs logPathPrefix = false := by
  rcases cs with _ | ⟨a, _ | ⟨b, _ | ⟨c, _ | ⟨d, _ | ⟨e, tail⟩⟩⟩⟩⟩ <;>
    simp [listStartsWith, logLevelPrefix, logPathPrefix] at h ⊢
  obtain ⟨-, -, -, -, he, -⟩ := h
  intro _ _ _ _ hep
  rw [hep] at he
  exact absurd he (by decide)

/-- A variable matching the level pattern does not match the path
pattern. -/
theorem matchLevel_path_disjoint (name : String) (g : List Char)
    (h : matchLogLevel name = some g) : matchLogPath name = none := by
  unfold matchLogLevel at h
  unfold matchLogPath
  by_cases hs : listStartsWith name.data logLevelPrefix = true
  · rw [startsWith_prefixes_disjoint name.data hs]
    simp
  · simp [hs] at h

/-- `List.lookup` on a cons cell, with a propositional guard. -/
theorem lookup_cons_if (k cn : String) (cv : LoggerConfig)
    (rest : List (String × LoggerConfig)) :
    List.lookup k ((cn, cv) :: rest) =
      if k = cn then some cv else List.lookup k rest := by
  rw [List.lookup_cons]
  cases hb : (k == cn) with
  | false => rw [if_neg (ne_of_beq_false hb)]
  | true => rw [if_pos (eq_of_beq hb)]

/-- Lookup through the every-matching-entry update `setLevel` performs. -/
theorem lookup_map_update_level (cfgs : List (String × LoggerConfig))
    (key lv k : String) :
    List.lookup k (cfgs.map (fun p =>
        if p.1 == key then (p.1, { level := some lv, path := p.2.path }) else p)) =
      if k = key then
        (List.lookup k cfgs).map (fun q => { level := some lv, path := q.path })
      else List.lookup k cfgs := by
  induction cfgs with
  | nil => simp [List.lookup]
  | cons c rest ih =>
    obtain ⟨cn, cv⟩ := c
    by_cases hc : cn = key <;> by_cases hk : k = key <;>
      by_cases hkc : k = cn <;>
      simp_all [lookup_cons_if, beq_iff_eq]

/-- Lookup through the every-matching-entry update `setPath` performs. -/
theorem lookup_map_update_path (cfgs : List (String × LoggerConfig))
    (key pv k : String) :
    List.lookup k (cfgs.map (fun p =>
        if p.1 == key then (p.1, { level := p.2.level, path := some pv }) else p)) =
      if k = key then
        (List.lookup k cfgs).map (fun q => { level := q.level, path := some pv })
      else List.lookup k cfgs := by
  induction cfgs with
  | nil => simp [List.lookup]
  | cons c rest ih =>
    obtain ⟨cn, cv⟩ := c
    by_cases hc : cn = key <;> by_cases hk : k = key <;>
      by_cases hkc : k = cn <;>
      simp_all [lookup_cons_if, beq_iff_eq]

/-- Lookup through appending a single entry at the end. -/
theorem lookup_append_single (cfgs : List (String × LoggerConfig))
    (key k : String) (v : LoggerConfig) :
    List.lookup k (cfgs ++ [(key, v)]) =
      match List.lookup k cfgs with
      | some w => some w
      | none => if k = key then some v else none := by
  induction cfgs with
  | nil =>
    by_cases hk : k = key <;> simp [lookup_cons_if, beq_iff_eq, hk]
  | cons c rest ih =>
    obtain ⟨cn, cv⟩ := c
    by_cases hkc : k = cn <;> simp_all [lookup_cons_if, beq_iff_eq]

/-- A key no entry carries looks up to nothing. -/
theorem any_false_lookup_none (cfgs : List (String × LoggerConfig))
    (key : String) (h : cfgs.any (fun p => p.1 == key) = false) :
    List.lookup key cfgs = none := by
  induction cfgs with
  | nil => simp [List.lookup]
  | cons c rest ih =>
    simp only [List.any_cons, Bool.or_eq_false_iff] at h
    obtain ⟨cn, cv⟩ := c
    have hne : ¬(key = cn) := by
      intro hcon
      rw [hcon] at h
      simp [beq_iff_eq] at h
    simp [lookup_cons_if, hne, ih h.2]

/-- A key some entry carries looks up to something. -/
theorem any_true_lookup_some (cfgs : List (String × LoggerConfig))
    (key : String) (h : cfgs.any (fun p => p.1 == key) = true) :
    ∃ w, List.lookup key cfgs = some w := by
  induction cfgs with
  | nil => simp at h
  | cons c rest ih =>
    obtain ⟨cn, cv⟩ := c
    by_cases hkc : key = cn
    · exact ⟨cv, by simp [lookup_cons_if, hkc]⟩
    · simp only [List.any_cons, Bool.or_eq_true] at h
      rcases h with h | h
      · have hck : cn = key := by simpa [beq_iff_eq] using h
        exact absurd hck.symm hkc
      · obtain ⟨w, hw⟩ := ih h
        exact ⟨w, by simp [lookup_cons_if, hkc, hw]⟩

/-- What `custom_configs[k]` holds after `setLevel`. -/
theorem lookup_setLevel (cfgs : List (String × LoggerConfig))
    (key lv k : String) :
    List.lookup k (setLevel cfgs key lv) =
      if k = key then
        some { level := some lv,
               path := ((List.lookup k cfgs).getD emptyLoggerConfig).path }
      else List.lookup k cfgs := by
  unfold setLevel
  by_cases hany : cfgs.any (fun p => p.1 == key) = true
  · rw [if_pos hany, lookup_map_update_level]
    by_cases hk : k = key
    · obtain ⟨w, hw⟩ := any_true_lookup_some cfgs key hany
      rw [if_pos hk, if_pos hk, hk, hw]
      rfl
    · rw [if_neg hk, if_neg hk]
  · rw [if_neg hany, lookup_append_single]
    simp only [Bool.not_eq_true] at hany
    have hnone := any_false_lookup_none cfgs key hany
    by_cases hk : k = key
    · rw [hk, hnone]
      simp [emptyLoggerConfig]
    · cases hlk : List.lookup k cfgs <;> simp [hk, hlk]

/-- What `custom_configs[k]` holds after `setPath`. -/
theorem lookup_setPath (cfgs : List (String × LoggerConfig))
    (key pv k : String) :
    List.lookup k (setPath cfgs key pv) =
      if k = key then
        some { level := ((List.lookup k cfgs).getD emptyLoggerConfig).level,
               path := some pv }
      else List.lookup k cfgs := by
  unfold setPath
  by_cases hany : cfgs.any (fun p => p.1 == key) = true
  · rw [if_pos hany, lookup_map_update_path]
    by_cases hk : k = key
    · obtain ⟨w, hw⟩ := any_true_lookup_some cfgs key hany
      rw [if_pos hk, if_pos hk, hk, hw]
      rfl
    · rw [if_neg hk, if_neg hk]
  · rw [if_neg hany, lookup_append_single]
    simp only [Bool.not_eq_true] at hany
    have hnone := any_false_lookup_none cfgs key hany
    by_cases hk : k = key
    · rw [hk, hnone]
      simp [emptyLoggerConfig]
    · cases hlk : List.lookup k cfgs <;> simp [hk, hlk]

/-- Invariant of the `for env_var in os.environ` loop: starting from any
accumulator, looking up a logger key in the final dict yields the key's
unique level/path variable values merged over whatever the accumulator
held. -/
theorem foldl_configStep_lookup (env : List (String × String)) :
    ∀ acc : List (String × LoggerConfig),
    distinctKeysBy levelKeyOf env = true →
    distinctKeysBy pathKeyOf env = true →
    ∀ key, List.lookup key (env.foldl configStep acc) =
      match specLevel env key, specPath env key with
      | none, none => List.lookup key acc
      | some lv, none =>
        some { level := some lv,
               path := ((List.lookup key acc).getD emptyLoggerConfig).path }
      | none, some pv =>
        some { level := ((List.lookup key acc).getD emptyLoggerConfig).level,
               path := some pv }
      | some lv, some pv => some { level := some lv, path := some pv } := by
  induction env with
  | nil =>
    intro acc hL hP key
    simp [specLevel, specPath]
  | cons p rest ih =>
    intro acc hL hP key
    obtain ⟨n, v⟩ := p
    have hL2 : distinctKeysBy levelKeyOf rest = true := by
      simp only [distinctKeysBy, Bool.and_eq_true] at hL
      exact hL.2
    have hP2 : distinctKeysBy pathKeyOf rest = true := by
      simp only [distinctKeysBy, Bool.and_eq_true] at hP
      exact hP.2
    show List.lookup key (rest.foldl configStep (configStep acc (n, v))) = _
    rcases hcl : matchLogLevel n with _ | g
    · rcases hcp : matchLogPath n with _ | g
      · -- a variable matching neither pattern contributes nothing
        have hlnone : levelKeyOf n = none := by simp [levelKeyOf, hcl]
        have hpnone : pathKeyOf n = none := by simp [pathKeyOf, hcp]
        have hstep : configStep acc (n, v) = acc := by
          simp [configStep, hcl, hcp]
        have hsl : specLevel ((n, v) :: rest) key = specLevel rest key := by
          simp [specLevel, List.find?_cons, hlnone]
        have hsp : specPath ((n, v) :: rest) key = specPath rest key := by
          simp [specPath, List.find?_cons, hpnone]
        rw [hstep, hsl, hsp, ih acc hL2 hP2 key]
      · -- a LOG_PATH_ variable
        have hkey : pathKeyOf n = some (loggerNameOf g) := by
          simp [pathKeyOf, hcp]
        have hlnone : levelKeyOf n = none := by simp [levelKeyOf, hcl]
        have hstep : configStep acc (n, v) = setPath acc (loggerNameOf g) v := by
          simp [configStep, hcl, hcp]
        have hsl : specLevel ((n, v) :: rest) key = specLevel rest key := by
          simp [specLevel, List.find?_cons, hlnone]
        rw [hstep, hsl]
        by_cases hk : key = loggerNameOf g
        · subst hk
          have hsp : specPath ((n, v) :: rest) (loggerNameOf g) = some v := by
            unfold specPath
            rw [List.find?_cons_of_pos]
            · rfl
            · simp [hkey]
          have hrestnone : specPath rest (loggerNameOf g) = none := by
            simp only [distinctKeysBy, Bool.and_eq_true] at hP
            have hall := hP.1
            rw [hkey] at hall
            have hall2 := List.all_eq_true.mp hall
            have hfind : List.find?
                (fun p => pathKeyOf p.1 == some (loggerNameOf g)) rest = none := by
              apply List.find?_eq_none.mpr
              intro x hx
              have hb := hall2 x hx
              simp only [bne_iff_ne, ne_eq] at hb
              simp [hb]
            simp [specPath, hfind]
          rw [hsp, ih _ hL2 hP2 (loggerNameOf g), hrestnone]
          cases hsl2 : specLevel rest (loggerNameOf g) with
          | none =>
            simp only []
            rw [lookup_setPath, if_pos rfl]
          | some lv =>
            simp only []
            rw [lookup_setPath, if_pos rfl]
            rfl
        · have hkne : ¬(loggerNameOf g = key) := fun h => hk h.symm
          have hsp : specPath ((n, v) :: rest) key = specPath rest key := by
            unfold specPath
            rw [List.find?_cons_of_neg]
            simp [hkey, hkne]
          have hlk : List.lookup key (setPath acc (loggerNameOf g) v) =
              List.lookup key acc := by
            rw [lookup_setPath, if_neg hk]
          rw [hsp, ih _ hL2 hP2 key, hlk]
    · -- a LOG_LEVEL_ variable (the elif never fires: the patterns are
      -- disjoint)
      have hkey : levelKeyOf n = some (loggerNameOf g) := by
        simp [levelKeyOf, hcl]
      have hpn := matchLevel_path_disjoint n g hcl
      have hpnone : pathKeyOf n = none := by simp [pathKeyOf, hpn]
      have hstep : configStep acc (n, v) = setLevel acc (loggerNameOf g) v := by
        simp [configStep, hcl]
      have hsp : specPath ((n, v) :: rest) key = specPath rest key := by
        simp [specPath, List.find?_cons, hpnone]
      rw [hstep, hsp]
      by_cases hk : key = loggerNameOf g
      · subst hk
        have hsl : specLevel ((n, v) :: rest) (loggerNameOf g) = some v := by
          unfold specLevel
          rw [List.find?_cons_of_pos]
          · rfl
          · simp [hkey]
        have hrestnone : specLevel rest (loggerNameOf g) = none := by
          simp only [distinctKeysBy, Bool.and_eq_true] at hL
          have hall := hL.1
          rw [hkey] at hall
          have hall2 := List.all_eq_true.mp hall
          have hfind : List.find?
              (fun p => levelKeyOf p.1 == some (loggerNameOf g)) rest = none := by
            apply List.find?_eq_none.mpr
            intro x hx
            have hb := hall2 x hx
            simp only [bne_iff_ne, ne_eq] at hb
            simp [hb]
          simp [specLevel, hfind]
        rw [hsl, ih _ hL2 hP2 (loggerNameOf g), hrestnone]
        cases hsp2 : specPath rest (loggerNameOf g) with
        | none =>
          simp only []
          rw [lookup_setLevel, if_pos rfl]
        | some pv =>
          simp only []
          rw [lookup_setLevel, if_pos rfl]
          rfl
      · have hkne : ¬(loggerNameOf g = key) := fun h => hk h.symm
        have hsl : specLevel ((n, v) :: rest) key = specLevel rest key := by
          unfold specLevel
          rw [List.find?_cons_of_neg]
          simp [hkey, hkne]
        have hlk : List.lookup key (setLevel acc (loggerNameOf g) v) =
            List.lookup key acc := by
          rw [lookup_setLevel, if_neg hk]
        rw [hsl, ih _ hL2 hP2 key, hlk]

/-- The keys after `setLevel`: unchanged on update, the new key appended
on insert. -/
theorem keys_setLevel (cfgs : List (String × LoggerConfig)) (key lv : String) :
    (setLevel cfgs key lv).map Prod.fst =
      if cfgs.any (fun p => p.1 == key) then cfgs.map Prod.fst
      else cfgs.map Prod.fst ++ [key] := by
  unfold setLevel
  by_cases hany : cfgs.any (fun p => p.1 == key) = true
  · rw [if_pos hany, if_pos hany, List.map_map]
    apply List.map_congr_left
    intro a ha
    by_cases h : a.1 = key <;> simp [h]
  · rw [if_neg hany, if_neg hany, List.map_append]
    rfl

/-- The keys after `setPath`: unchanged on update, the new key appended on
insert. -/
theorem keys_setPath (cfgs : List (String × LoggerConfig)) (key pv : String) :
    (setPath cfgs key pv).map Prod.fst =
      if cfgs.any (fun p => p.1 == key) then cfgs.map Prod.fst
      else cfgs.map Prod.fst ++ [key] := by
  unfold setPath
  by_cases hany : cfgs.any (fun p => p.1 == key) = true
  · rw [if_pos hany, if_pos hany, List.map_map]
    apply List.map_congr_left
    intro a ha
    by_cases h : a.1 = key <;> simp [h]
  · rw [if_neg hany, if_neg hany, List.map_append]
    rfl

/-- A key no entry carries is not among the keys. -/
theorem any_false_not_mem_keys (cfgs : List (String × LoggerConfig))
    (key : String) (h : cfgs.any (fun p => p.1 == key) = false) :
    key ∉ cfgs.map Prod.fst := by
  intro hmem
  obtain ⟨p, hp, hfst⟩ := List.mem_map.mp hmem
  rw [List.any_eq_false] at h
  have := h p hp
  rw [hfst] at this
  simp at this

/-- `setLevel` keeps the dict's keys distinct. -/
theorem nodup_keys_setLevel (cfgs : List (String × LoggerConfig))
    (key lv : String) (h : (cfgs.map Prod.fst).Nodup) :
    ((setLevel cfgs key lv).map Prod.fst).Nodup := by
  rw [keys_setLevel]
  by_cases hany : cfgs.any (fun p => p.1 == key) = true
  · simp [hany, h]
  · have hfalse : cfgs.any (fun p => p.1 == key) = false := by
      simp only [Bool.not_eq_true] at hany
      exact hany
    have hnm := any_false_not_mem_keys cfgs key hfalse
    simp [hany, List.nodup_append, h, hnm]

/-- `setPath` keeps the dict's keys distinct. -/
theorem nodup_keys_setPath (cfgs : List (String × LoggerConfig))
    (key pv : String) (h : (cfgs.map Prod.fst).Nodup) :
    ((setPath cfgs key pv).map Prod.fst).Nodup := by
  rw [keys_setPath]
  by_cases hany : cfgs.any (fun p => p.1 == key) = true
  · simp [hany, h]
  · have hfalse : cfgs.any (fun p => p.1 == key) = false := by
      simp only [Bool.not_eq_true] at hany
      exact hany
    have hnm := any_false_not_mem_keys cfgs key hfalse
    simp [hany, List.nodup_append, h, hnm]

/-- The parsed configuration is a dict: one entry per logger key. -/
theorem getCustomLoggerConfigs_keys_nodup (env : List (String × String)) :
    ((getCustomLoggerConfigs env).map Prod.fst).Nodup := by
  suffices h : ∀ acc : List (String × LoggerConfig), (acc.map Prod.fst).Nodup →
      ((env.foldl configStep acc).map Prod.fst).Nodup by
    exact h [] (by simp)
  induction env with
  | nil =>
    intro acc h
    simpa using h
  | cons p rest ih =>
    intro acc h
    show ((rest.foldl configStep (configStep acc p)).map Prod.fst).Nodup
    apply ih
    unfold configStep
    rcases hcl : matchLogLevel p.1 with _ | g
    · rcases hcp : matchLogPath p.1 with _ | g
      · simpa using h
      · simpa using nodup_keys_setPath acc (loggerNameOf g) p.2 h
    · simpa using nodup_keys_setLevel acc (loggerNameOf g) p.2 h

/-- C7: `get_custom_logger_configs` returns a dict with exactly one entry
per logger name mentioned by a `LOG_LEVEL_<NAME>` or `LOG_PATH_<NAME>`
variable, keyed by `<NAME>` lowercased with underscores replaced by dots;
the entry holds `"level"` from the `LOG_LEVEL_` variable and `"path"` from
the `LOG_PATH_` variable whenever present (merged when both), and
variables matching neither pattern contribute nothing.  (The distinctness
hypotheses say no two variables yield the same key through the same
pattern, which is what makes "the `LOG_LEVEL_<NAME>` value" well
defined.) -/
theorem getCustomLoggerConfigs_spec (env : List (String × String))
    (hL : distinctKeysBy levelKeyOf env = true)
    (hP : distinctKeysBy pathKeyOf env = true) :
    (∀ key, List.lookup key (getCustomLoggerConfigs env) =
      if specLevel env key = none ∧ specPath env key = none then none
      else some { level := specLevel env key, path := specPath env key }) ∧
    ((getCustomLoggerConfigs env).map Prod.fst).Nodup := by
  refine ⟨?_, getCustomLoggerConfigs_keys_nodup env⟩
  intro key
  have h := foldl_configStep_lookup env [] hL hP key
  unfold getCustomLoggerConfigs
  rw [h]
  cases hl : specLevel env key <;> cases hp : specPath env key <;>
    simp [List.lookup, emptyLoggerConfig]

/-- Witness for C7 on a concrete environment covering all four cases. -/
theorem getCustomLoggerConfigs_spec_witness :
    List.lookup "httpx" (getCustomLoggerConfigs sampleEnv) =
      some { level := some "DEBUG", path := some "/var/log/httpx.log" } ∧
    List.lookup "my.custom.logger" (getCustomLoggerConfigs sampleEnv) =
      some { level := some "INFO", path := none } ∧
    List.lookup "sqlalchemy.engine" (getCustomLoggerConfigs sampleEnv) =
      some { level := none, path := some "/var/log/sql.log" } ∧
    List.lookup "home" (getCustomLoggerConfigs sampleEnv) = none := by
  have h := (getCustomLoggerConfigs_spec sampleEnv (by decide) (by decide)).1
  exact ⟨(h "httpx").trans (by decide),
    (h "my.custom.logger").trans (by decide),
    (h "sqlalchemy.engine").trans (by decide),
    (h "home").trans (by decide)⟩

/-- Wiring one logger never touches another logger's state. -/
theorem applyLoggerConfig_other (dfmt : Option String) (st : LoggingState)
    (name : String) (cfg : LoggerConfig) (m : String) (hm : m ≠ name) :
    (applyLoggerConfig dfmt st name cfg).loggers m = st.loggers m := by
  unfold applyLoggerConfig
  cases cfg.path <;> cases cfg.level <;> simp [hm]

/-- Wiring one logger sets exactly the claimed state on it: propagation
off, the single expected handler, and the level resolved through the
stdlib mapping when valid. -/
theorem applyLoggerConfig_self (dfmt : Option String) (st : LoggingState)
    (name : String) (cfg : LoggerConfig) :
    (applyLoggerConfig dfmt st name cfg).loggers name =
      { propagate := false, handlers := [expectedHandler dfmt cfg],
        level := expectedLevel cfg (st.loggers name).level } := by
  unfold applyLoggerConfig expectedHandler expectedLevel
  cases hp : cfg.path <;> cases hl : cfg.level <;>
    simp [hp, hl] <;>
    cases hm : levelNamesMapping.lookup (pyUpper _) <;> simp [hm]

/-- Wiring one logger records the parent-directory creation for its
configured path. -/
theorem applyLoggerConfig_mkdir (dfmt : Option String) (st : LoggingState)
    (name : String) (cfg : LoggerConfig) (p : String) (hp : cfg.path = some p) :
    p ∈ (applyLoggerConfig dfmt st name cfg).mkdirParents := by
  unfold applyLoggerConfig
  cases cfg.level <;> simp [hp]

/-- Wiring one logger only ever adds to the directory-creation log. -/
theorem applyLoggerConfig_mkdir_mono (dfmt : Option String) (st : LoggingState)
    (name : String) (cfg : LoggerConfig) (p : String)
    (hp : p ∈ st.mkdirParents) :
    p ∈ (applyLoggerConfig dfmt st name cfg).mkdirParents := by
  unfold applyLoggerConfig
  cases cfg.path <;> cases cfg.level <;> simp [hp]

/-- The wiring loop leaves loggers whose names it never visits alone. -/
theorem setupLoop_untouched (cfgs : List (String × LoggerConfig)) :
    ∀ (dfmt : Option String) (st : LoggingState) (name : String),
    name ∉ cfgs.map Prod.fst →
    ((cfgs.foldl (fun s p => applyLoggerConfig dfmt s p.1 p.2) st).loggers name)
      = st.loggers name := by
  induction cfgs with
  | nil =>
    intro dfmt st name hmem
    rfl
  | cons c rest ih =>
    intro dfmt st name hmem
    simp only [List.map_cons, List.mem_cons, not_or] at hmem
    show ((rest.foldl _ (applyLoggerConfig dfmt st c.1 c.2)).loggers name) = _
    rw [ih dfmt _ name hmem.2, applyLoggerConfig_other dfmt st c.1 c.2 name hmem.1]

/-- The wiring loop never drops a recorded directory creation. -/
theorem setupLoop_mkdir_mono (cfgs : List (String × LoggerConfig)) :
    ∀ (dfmt : Option String) (st : LoggingState) (p : String),
    p ∈ st.mkdirParents →
    p ∈ (cfgs.foldl (fun s q => applyLoggerConfig dfmt s q.1 q.2) st).mkdirParents := by
  induction cfgs with
  | nil =>
    intro dfmt st p hp
    exact hp
  | cons c rest ih =>
    intro dfmt st p hp
    exact ih dfmt _ p (applyLoggerConfig_mkdir_mono dfmt st c.1 c.2 p hp)

/-- The wiring loop over a dict with distinct keys gives every listed
logger exactly its configured state. -/
theorem setupLoop_spec (cfgs : List (String × LoggerConfig)) :
    ∀ (dfmt : Option String) (st : LoggingState) (name : String)
    (cfg : LoggerConfig),
    (cfgs.map Prod.fst).Nodup → (name, cfg) ∈ cfgs →
    ((cfgs.foldl (fun s p => applyLoggerConfig dfmt s p.1 p.2) st).loggers name =
      { propagate := false, handlers := [expectedHandler dfmt cfg],
        level := expectedLevel cfg (st.loggers name).level }) ∧
    (∀ p, cfg.path = some p →
      p ∈ (cfgs.foldl (fun s q => applyLoggerConfig dfmt s q.1 q.2) st).mkdirParents) := by
  induction cfgs with
  | nil =>
    intro dfmt st name cfg hnd hmem
    exact absurd hmem (List.not_mem_nil _)
  | cons c rest ih =>
    intro dfmt st name cfg hnd hmem
    simp only [List.map_cons, List.nodup_cons] at hnd
    rcases List.mem_cons.mp hmem with hhead | htail
    · have hn : name = c.1 := congrArg Prod.fst hhead
      have hc : cfg = c.2 := congrArg Prod.snd hhead
      constructor
      · show ((rest.foldl _ (applyLoggerConfig dfmt st c.1 c.2)).loggers name) = _
        have hname : name ∉ rest.map Prod.fst := by
          rw [hn]
          exact hnd.1
        rw [setupLoop_untouched rest dfmt _ name hname, hn, hc,
          applyLoggerConfig_self]
      · intro p hp
        show p ∈ (rest.foldl _ (applyLoggerConfig dfmt st c.1 c.2)).mkdirParents
        apply setupLoop_mkdir_mono
        apply applyLoggerConfig_mkdir
        rw [← hc]
        exact hp
    · have hne : name ≠ c.1 := by
        intro hcon
        apply hnd.1
        rw [← hcon]
        exact List.mem_map.mpr ⟨(name, cfg), htail, rfl⟩
      have hres := ih dfmt (applyLoggerConfig dfmt st c.1 c.2) name cfg hnd.2 htail
      constructor
      · show ((rest.foldl _ (applyLoggerConfig dfmt st c.1 c.2)).loggers name) = _
        rw [hres.1, applyLoggerConfig_other dfmt st c.1 c.2 name hne]
      · exact hres.2

/-- C8: for every logger named by the parsed environment configuration,
`setup_custom_loggers` disables propagation, clears the handlers, attaches
a `FileHandler` at the configured path (with the parent directories
created and the default handler's formatter) when a path is configured and
the provided default handler otherwise, and sets the level to the
configured one whenever its uppercased name is a valid logging level
(leaving the level unchanged otherwise). -/
theorem setupCustomLoggers_spec (dfmt : Option String)
    (env : List (String × String)) (st : LoggingState) (name : String)
    (cfg : LoggerConfig) (hmem : (name, cfg) ∈ getCustomLoggerConfigs env) :
    ((setupCustomLoggers dfmt env st).loggers name).propagate = false ∧
    ((setupCustomLoggers dfmt env st).loggers name).handlers =
      [expectedHandler dfmt cfg] ∧
    ((setupCustomLoggers dfmt env st).loggers name).level =
      expectedLevel cfg (st.loggers name).level ∧
    (∀ p, cfg.path = some p → p ∈ (setupCustomLoggers dfmt env st).mkdirParents) := by
  have h := setupLoop_spec (getCustomLoggerConfigs env) dfmt st name cfg
    (getCustomLoggerConfigs_keys_nodup env) hmem
  unfold setupCustomLoggers
  rw [h.1]
  exact ⟨rfl, rfl, rfl, h.2⟩

/-- Witness for C8 at a concrete environment and logger. -/
theorem setupCustomLoggers_spec_witness :
    ((setupCustomLoggers (some "fmt") sampleEnv sampleLoggingState).loggers
      "httpx").propagate = false ∧
    ((setupCustomLoggers (some "fmt") sampleEnv sampleLoggingState).loggers
      "httpx").handlers =
      [HandlerRef.fileHandler "/var/log/httpx.log" (some "fmt")] ∧
    ((setupCustomLoggers (some "fmt") sampleEnv sampleLoggingState).loggers
      "httpx").level = 10 ∧
    "/var/log/httpx.log" ∈
      (setupCustomLoggers (some "fmt") sampleEnv sampleLoggingState).mkdirParents := by
  have h := setupCustomLoggers_spec (some "fmt") sampleEnv sampleLoggingState
    "httpx" { level := some "DEBUG", path := some "/var/log/httpx.log" }
    (by decide)
  exact ⟨h.1, h.2.1.trans (by decide), h.2.2.1.trans (by decide),
    h.2.2.2 "/var/log/httpx.log" rfl⟩

end StructlogConfig
